import Mathlib

/-!
Verification development for the QWC data service (server.py): a shallow
embedding of the relation batch-transaction engine (Relations.post,
Relations.attachments_diff, Relations.cleanup_attachments), the single-record
multipart edit orchestrator (EditFeatureMultipart.put) and the multipart
create endpoint (CreateFeatureMultipart.post).

External collaborators (the Record Store `DataService` and the Attachment
Store `AttachmentsService`, whose sources are not part of this development)
are modelled as oracles with the interfaces the specification declares for
them: `show` yields the stored record or absent, create/update yield a
record or a structured error, destroy yields ok or an error, attachment
validate/save are per-file outcomes.  All side effects are recorded as an
ordered trace of `Call`s so that file-system consequences can be stated.
-/

set_option maxRecDepth 8000

namespace QWC

/-- Characters of a string (python strings are sequences of characters). -/
def chars (s : String) : List Char := s.data

/-- String from a character list. -/
def strOf (l : List Char) : String := ⟨l⟩

/-- Boolean test that the first list is an initial segment of the second. -/
def isPre : List Char → List Char → Bool
  | [], _ => true
  | _ :: _, [] => false
  | a :: as, b :: bs => (a == b) && isPre as bs

/-- python `s.startswith(p)`. -/
def startsWithS (s p : String) : Bool := isPre (chars p) (chars s)

/-- python `s.lstrip(cs)`: removes *leading characters drawn from the
character set `cs`* (not the literal string `cs`). -/
def pyLstrip (s cs : String) : String :=
  strOf ((chars s).dropWhile (fun c => (chars cs).contains c))

/-- Character length of a string. -/
def lenS (s : String) : Nat := (chars s).length

/-- python slicing `s[n:]` (by characters). -/
def dropS (s : String) (n : Nat) : String := strOf ((chars s).drop n)

/-- Helper for python `s.split("__")`: greedy left-to-right split at `__`. -/
def splitUUAux : List Char → List Char → List String
  | [], acc => [strOf acc.reverse]
  | '_' :: '_' :: rest, acc => strOf acc.reverse :: splitUUAux rest []
  | c :: rest, acc => splitUUAux rest (c :: acc)

/-- python `s.split("__")`. -/
def splitUU (s : String) : List String := splitUUAux (chars s) []

/-- Scalar JSON/python values occurring in feature properties. -/
inductive Value where
  | vStr (s : String)
  | vInt (n : Int)
  | vBool (b : Bool)
  | vNull
  deriving DecidableEq, Repr

open Value

/-- python `==` on the modelled scalar values (bool promotes to int). -/
def pyEq : Value → Value → Bool
  | vStr a, vStr b => decide (a = b)
  | vInt a, vInt b => decide (a = b)
  | vBool a, vBool b => decide (a = b)
  | vInt a, vBool b => decide (a = (if b then 1 else 0))
  | vBool a, vInt b => decide ((if a then (1 : Int) else 0) = b)
  | vNull, vNull => true
  | _, _ => false

/-- python `str(value)`. -/
def pyStr : Value → String
  | vStr s => s
  | vInt n => toString n
  | vBool b => if b then "True" else "False"
  | vNull => "None"

/-- python truthiness of a value. -/
def pyTruthy : Value → Bool
  | vStr s => !(decide (s = ""))
  | vInt n => !(decide (n = 0))
  | vBool b => b
  | vNull => false

/-- An insertion-ordered python dict with string keys (keys unique). -/
abbrev Props := List (String × Value)

/-- python `d[k]` as an option (dict lookup). -/
def lookupP : Props → String → Option Value
  | [], _ => none
  | (k, v) :: t, key => if k = key then some v else lookupP t key

/-- python dict item assignment: replace in place or append at the end. -/
def setP : Props → String → Value → Props
  | [], k, v => [(k, v)]
  | (k0, v0) :: t, k, v => if k0 = k then (k, v) :: t else (k0, v0) :: setP t k v

/-- python dict-of-names insertion: keep the first position if present. -/
def addName (l : List String) (n : String) : List String :=
  if l.contains n then l else l ++ [n]

/-- Structured error of a Record Store operation (message, http code, details). -/
structure StoreErr where
  msg : String
  code : Nat
  details : Props
  deriving DecidableEq, Repr

/-- A feature returned by the Record Store: id and properties. -/
structure Feat where
  fid : Value
  props : Props
  deriving DecidableEq, Repr

/-- One observable side-effecting call made by the service. -/
inductive Call where
  | create (table : String) (props : Props)
  | update (table : String) (fid : Value) (props : Props)
  | destroy (table : String) (fid : Value)
  | saveAtt (slug : String)
  | removeAtt (slug : String)
  deriving DecidableEq, Repr

/-- A record echoed in a response: its fields, and the `error_details` dict
(kept as a side component because its value is itself a dict). -/
structure OutRec where
  fields : Props
  errDetails : Option Props
  deriving DecidableEq, Repr

/-- External Record Store (data_service.DataService), modelled from the spec
interface: `show` yields the stored record's properties or absent;
create/update yield a feature or a structured error; destroy yields ok
(without a feature) or an error. -/
structure Store where
  show_ : String → Value → Option Props
  create : String → Value → Props → Except StoreErr Feat
  update : String → Value → Props → Except StoreErr Feat
  destroy : String → Value → Except StoreErr Unit

/-- External Attachment Store oracle: validation and save outcomes per file key. -/
structure AttStore where
  validate : String → Bool
  save : String → Option String

/-- Relations.cleanup_attachments (server.py 792-794): each collected reference
is passed to `remove_attachment` after `slug.lstrip("attachment://")` — a
*character-set* strip. Returns the slug arguments handed to the store. -/
def cleanup_calls (slugs : List String) : List String :=
  slugs.map (fun s => pyLstrip s "attachment://")

/-- Result of the attachment diff: new refs, old refs, the (possibly mutated)
feature properties, and the (possibly extended) internal field names. -/
abbrev DiffOut := List String × List String × Props × List String

/-- Audit-field mutation of the diff (server.py 783-786): when an audit suffix
is configured and the old value was an attachment reference, the upload-user
field is written into the feature properties. -/
def uploadMutP (sfx : Option String) (hit : Bool) (props : Props) (k user : String) : Props :=
  match sfx, hit with
  | some s, true => setP props (k ++ "__" ++ s) (vStr user)
  | _, _ => props

/-- Companion of `uploadMutP` for the internal-field name set. -/
def uploadMutI (sfx : Option String) (hit : Bool) (internal : List String) (k : String) :
    List String :=
  match sfx, hit with
  | some s, true => addName internal (k ++ "__" ++ s)
  | _, _ => internal

/-- Loop body of Relations.attachments_diff (server.py 778-789), iterating the
captured key list of the incoming feature. `.error` models an uncaught
python KeyError (which aborts the whole request). -/
def diffLoop (prevProps : Props) (sfx : Option String) (user : String) (rd : Bool) :
    List String → Props → List String → List String → List String → Except Unit DiffOut
  | [], props, internal, na, oa => .ok (na, oa, props, internal)
  | k :: rest, props, internal, na, oa =>
    match lookupP props k with
    | none => .error ()
    | some v =>
      let changed :=
        (match lookupP prevProps k with
         | some pv => !(pyEq v pv)
         | none => false) || rd
      if changed then
        match lookupP prevProps k with
        | none => .error ()
        | some pv =>
          let hit := startsWithS (pyStr pv) "attachment://"
          let oa1 := if hit then oa ++ [pyStr pv] else oa
          let props1 := uploadMutP sfx hit props k user
          let internal1 := uploadMutI sfx hit internal k
          let na1 := if startsWithS (pyStr v) "attachment://" then na ++ [pyStr v] else na
          diffLoop prevProps sfx user rd rest props1 internal1 na1 oa1
      else diffLoop prevProps sfx user rd rest props internal na oa

/-- Relations.attachments_diff (server.py 770-790). The Record Store `show`
result is passed in as `prev` (stored record's properties, or absent). The
loop iterates the *incoming* feature's property keys; with `record_deleted`
the stored-side lookup is unguarded (python KeyError, modelled `.error`). -/
def attachments_diff (prev : Option Props) (props : Props) (internal : List String)
    (sfx : Option String) (user : String) (record_deleted : Bool) : Except Unit DiffOut :=
  match prev with
  | none => .ok ([], [], props, internal)
  | some prevProps =>
      diffLoop prevProps sfx user record_deleted (props.map (fun kv => kv.1)) props internal [] []

/-- Canonical entry built from a flattened relation record: keep properties
carrying the `<table>__` marker and un-flatten their names (server.py 736). -/
def unpfx (p : String) (props : Props) : Props :=
  (props.filter (fun kv => startsWithS kv.1 p)).map (fun kv => (dropS kv.1 (lenS p), kv.2))

/-- Table-scoped internal fields from the request-global list (server.py 739). -/
def tableInternal (p : String) (names : List String) : List String :=
  (names.filter (fun n => startsWithS n p)).foldl (fun acc n => addName acc (dropS n (lenS p))) []

/-- Echo of a committed feature: re-flatten with the table marker, dropping
internal fields, then set `id` (server.py 764-765). -/
def echoFeature (tbl : String) (tif : List String) (f : Feat) : Props :=
  setP ((f.props.filter (fun kv => !(tif.contains kv.1))).map
          (fun kv => (tbl ++ "__" ++ kv.1, kv.2))) "id" f.fid

/-- Per-record result: echoed records (zero or one), the error flag
contribution, and the ordered trace of calls it made. -/
structure RecOut where
  out : List OutRec
  haserr : Bool
  calls : List Call
  deriving DecidableEq, Repr

/-- Outcome handling of a create/update result (server.py 758-766): on error
the original record is echoed with `error`/`error_details` attached; on
success the Store's returned feature is echoed re-flattened. -/
def finishStore (tbl : String) (tif : List String) (rec1 : Props)
    (result : Except StoreErr Feat) (cls : List Call) : RecOut :=
  match result with
  | .error e =>
      { out := [⟨setP rec1 "error" (vStr e.msg), some e.details⟩], haserr := true, calls := cls }
  | .ok f =>
      { out := [⟨echoFeature tbl tif f, none⟩], haserr := false, calls := cls }

/-- Outcome handling of a destroy result: its success value carries no
`feature` key, so lines 758-766 echo nothing on success. -/
def finishDestroy (rec1 : Props) (result : Except StoreErr Unit) (cls : List Call) : RecOut :=
  match result with
  | .error e =>
      { out := [⟨setP rec1 "error" (vStr e.msg), some e.details⟩], haserr := true, calls := cls }
  | .ok _ => { out := [], haserr := false, calls := [] ++ cls }

/-- One iteration of the per-record loop of Relations.post (server.py 723-766):
force the foreign key for new records, FK validation, then dispatch on
`__status__` (absent / "new" / "changed" / "deleted"-prefixed / other).
`.error` models an uncaught python exception (KeyError on a missing `id`,
AttributeError on a non-string status, or a KeyError inside the diff). -/
def processRecord (store : Store) (sfx : Option String) (user : String) (pid : Int)
    (tbl fkField : String) (internalFields : List String) (rec : Props) :
    Except Unit RecOut :=
  let p := tbl ++ "__"
  let fkKey := p ++ fkField
  let rec1 := if pyEq ((lookupP rec "__status__").getD (vStr "")) (vStr "new")
              then setP rec fkKey (vInt pid) else rec
  if !(pyEq ((lookupP rec1 fkKey).getD vNull) (vInt pid)) then
    .ok { out := [⟨setP rec1 "__error__" (vStr "FK validation failed"), none⟩],
          haserr := true, calls := [] }
  else
    let entryProps := unpfx p rec1
    let tif := tableInternal p internalFields
    match lookupP rec1 "__status__" with
    | none => .ok { out := [⟨rec1, none⟩], haserr := false, calls := [] }
    | some st =>
      if pyEq st (vStr "new") then
        .ok (finishStore tbl tif rec1
              (store.create tbl ((lookupP rec1 "id").getD vNull) entryProps)
              [Call.create tbl entryProps])
      else if pyEq st (vStr "changed") then
        match lookupP rec1 "id" with
        | none => .error ()
        | some idv =>
          match attachments_diff (store.show_ tbl idv) entryProps tif sfx user false with
          | .error _ => .error ()
          | .ok (na, oa, props2, tif2) =>
            let result := store.update tbl idv props2
            let removed := cleanup_calls (match result with | .error _ => na | .ok _ => oa)
            .ok (finishStore tbl tif2 rec1 result
                  (Call.update tbl idv props2 :: removed.map Call.removeAtt))
      else
        match st with
        | vStr s =>
          if startsWithS s "deleted" then
            match lookupP rec1 "id" with
            | none => .error ()
            | some idv =>
              match attachments_diff (store.show_ tbl idv) entryProps tif sfx user true with
              | .error _ => .error ()
              | .ok (na, oa, props2, _tif2) =>
                let pre := if sfx.isSome then [Call.update tbl idv props2] else []
                let result := store.destroy tbl idv
                let removed := cleanup_calls (match result with | .error _ => na | .ok _ => oa)
                .ok (finishDestroy rec1 result
                      (pre ++ [Call.destroy tbl idv] ++ removed.map Call.removeAtt))
          else .ok { out := [], haserr := false, calls := [] }
        | _ => .error ()

/-- One table's batch data: the `fk` field value and the record list. -/
structure RelData where
  fk : Option Value
  records : List Props
  deriving DecidableEq, Repr

/-- One table's response: the echoed `fk` and the outcome records. -/
structure TableOut where
  fkOut : Option Value
  records : List OutRec
  deriving DecidableEq, Repr

/-- The parsed relations payload: table name to its batch data, in order. -/
abbrev Payload := List (String × RelData)

/-- Record loop of one table, threading outcomes, the error flag and calls. -/
def recordsLoop (store : Store) (sfx : Option String) (user : String) (pid : Int)
    (tbl fkField : String) (internalFields : List String) :
    List Props → List OutRec → Bool → List Call → Except Unit (List OutRec × Bool × List Call)
  | [], outs, he, cls => .ok (outs, he, cls)
  | r :: rest, outs, he, cls =>
    match processRecord store sfx user pid tbl fkField internalFields r with
    | .error _ => .error ()
    | .ok ro =>
        recordsLoop store sfx user pid tbl fkField internalFields rest
          (outs ++ ro.out) (he || ro.haserr) (cls ++ ro.calls)

/-- Per-table part of Relations.post (716-722 plus the record loop). A missing
or non-string `fk` raises a TypeError at the first record (string
concatenation with a non-string), mirrored by `.error`. -/
def processTable (store : Store) (sfx : Option String) (user : String) (pid : Int)
    (internalFields : List String) (tbl : String) (rd : RelData) (he : Bool) :
    Except Unit (TableOut × Bool × List Call) :=
  match rd.records with
  | [] => .ok ({ fkOut := rd.fk, records := [] }, he, [])
  | _ =>
    match rd.fk with
    | some (vStr f) =>
      match recordsLoop store sfx user pid tbl f internalFields rd.records [] he [] with
      | .error _ => .error ()
      | .ok (outs, he2, cls) => .ok ({ fkOut := rd.fk, records := outs }, he2, cls)
    | _ => .error ()

/-- The table loop of Relations.post (line 716), in payload order. -/
def coreLoop (store : Store) (sfx : Option String) (user : String) (pid : Int)
    (internalFields : List String) :
    Payload → List (String × TableOut) → Bool → List Call →
    Except Unit (List (String × TableOut) × Bool × List Call)
  | [], acc, he, cls => .ok (acc, he, cls)
  | (tbl, rd) :: rest, acc, he, cls =>
    match processTable store sfx user pid internalFields tbl rd he with
    | .error _ => .error ()
    | .ok (tout, he2, cls2) =>
        coreLoop store sfx user pid internalFields rest (acc ++ [(tbl, tout)]) he2 (cls ++ cls2)

/-- Payload table lookup (python `payload[table]`). -/
def lookupT : Payload → String → Option RelData
  | [], _ => none
  | (k, v) :: t, key => if k = key then some v else lookupT t key

/-- Payload table assignment. -/
def setT : Payload → String → RelData → Payload
  | [], k, v => [(k, v)]
  | (k0, v0) :: t, k, v => if k0 = k then (k, v) :: t else (k0, v0) :: setT t k v

/-- python list indexing with negative-index semantics; none is an IndexError. -/
def pyIndex (len : Nat) (i : Int) : Option Nat :=
  let j := if i < 0 then (len : Int) + i else i
  if 0 ≤ j ∧ j < (len : Int) then some j.toNat else none

/-- Digits value of a character list, if all digits. -/
def digitsVal : List Char → Option Nat
  | [] => none
  | l => if l.all (fun c => c.isDigit) then
           some (l.foldl (fun acc c => acc * 10 + (c.toNat - 48)) 0)
         else none

/-- python `int(s)` on the index strings of file keys; none is a ValueError. -/
def pyToInt (s : String) : Option Int :=
  match chars s with
  | '-' :: ds => (digitsVal ds).map (fun n => -(n : Int))
  | ds => (digitsVal ds).map (fun n => (n : Int))

/-- Binding of one saved file into the relations payload (server.py 703-712):
the key "file:<t>__<f>__<i>" addresses record i of table t (the leading
marker is removed by a character-set lstrip). Malformed keys, missing
tables and bad indices raise (IndexError/KeyError/ValueError): `.error`. -/
def bindRelFile (sfx : Option String) (user : String) (payload : Payload)
    (internal : List String) (key slug : String) :
    Except Unit (Payload × List String) :=
  match splitUU (pyLstrip key "file:") with
  | t :: f :: ix :: _ =>
    match lookupT payload t with
    | none => .error ()
    | some rd =>
      match pyToInt ix with
      | none => .error ()
      | some i =>
        match pyIndex rd.records.length i with
        | none => .error ()
        | some j =>
          match rd.records.get? j with
          | none => .error ()
          | some r =>
            let r1 := setP r (t ++ "__" ++ f) (vStr ("attachment://" ++ slug))
            let (r2, internal2) :=
              match sfx with
              | some s =>
                let uf := t ++ "__" ++ f ++ "__" ++ s
                (setP r1 uf (vStr user), internal ++ [uf])
              | none => (r1, internal)
            .ok (setT payload t { rd with records := rd.records.set j r2 }, internal2)
  | _ => .error ()

/-- Result of the relations save loop. -/
inductive RelSave where
  | ok (payload : Payload) (internal : List String) (saved : List (String × String))
      (calls : List Call)
  | fail (key : String) (calls : List Call)
  | crash (calls : List Call)
  deriving DecidableEq, Repr

/-- Attachment save loop of Relations.post (server.py 693-712): saves the files
one at a time in input order; on a failed save, every slug already saved in
this call is removed (in insertion order) and the request aborts. -/
def saveLoopRel (att : AttStore) (sfx : Option String) (user : String) :
    List String → Payload → List String → List (String × String) → List Call → RelSave
  | [], payload, internal, saved, cls => .ok payload internal saved cls
  | k :: rest, payload, internal, saved, cls =>
    match att.save k with
    | none => .fail k (cls ++ saved.map (fun kv => Call.removeAtt kv.2))
    | some slug =>
      match bindRelFile sfx user payload internal k slug with
      | .error _ => .crash (cls ++ [Call.saveAtt slug])
      | .ok (payload2, internal2) =>
          saveLoopRel att sfx user rest payload2 internal2
            (saved ++ [(k, slug)]) (cls ++ [Call.saveAtt slug])

/-- Attachment validation loop: first failing key, if any (fail fast, before
any save). -/
def validateAll (att : AttStore) : List String → Option String
  | [] => none
  | k :: rest => if att.validate k then validateAll att rest else some k

/-- Result of the whole Relations.post call. -/
inductive PostResult where
  | ok (relationvalues : List (String × TableOut)) (success : Bool) (calls : List Call)
  | httpAbort (code : Nat) (msg : String) (calls : List Call)
  | pyError (calls : List Call)
  deriving DecidableEq, Repr

/-- Relations.post (server.py 660-768) for an already-parsed payload: parent
editability check, attachment validation, attachment save with rollback,
then the per-table per-record batch. Uncaught python exceptions are
`.pyError` (the calls already made inside the crashing batch loop are not
tracked on that path; no claim inspects them). -/
def relationsPost (store : Store) (att : AttStore) (editable : Bool) (sfx : Option String)
    (user : String) (pid : Int) (fileKeys : List String) (payload : Payload) : PostResult :=
  if !editable then .httpAbort 404 "Dataset or feature not found or permission error" []
  else
    match validateAll att fileKeys with
    | some k => .httpAbort 404 ("Attachment validation failed: " ++ k) []
    | none =>
      match saveLoopRel att sfx user fileKeys payload [] [] [] with
      | .fail k cls => .httpAbort 404 ("Failed to save attachment: " ++ k) cls
      | .crash cls => .pyError cls
      | .ok payload2 internal2 _saved cls =>
        match coreLoop store sfx user pid internal2 payload2 [] false [] with
        | .error _ => .pyError cls
        | .ok (rv, he, cls2) => .ok rv (!he) (cls ++ cls2)

/-- Result of the feature save loop shared by the multipart endpoints. -/
inductive FeatSave where
  | ok (props : Props) (internal : List String) (saved : List (String × String))
      (calls : List Call)
  | fail (key : String) (calls : List Call)
  deriving DecidableEq, Repr

/-- Attachment save loop shared by CreateFeatureMultipart.post (391-408) and
EditFeatureMultipart.put (465-482): binds `attachment://slug` into the
feature properties (the field name obtained by a character-set
lstrip("file:")), optionally adding the audit user field. -/
def saveLoopFeat (att : AttStore) (sfx : Option String) (user : String) :
    List String → Props → List String → List (String × String) → List Call → FeatSave
  | [], props, internal, saved, cls => .ok props internal saved cls
  | k :: rest, props, internal, saved, cls =>
    match att.save k with
    | none => .fail k (cls ++ saved.map (fun kv => Call.removeAtt kv.2))
    | some slug =>
      let field := pyLstrip k "file:"
      let props1 := setP props field (vStr ("attachment://" ++ slug))
      let (props2, internal2) :=
        match sfx with
        | some s =>
          let uf := field ++ "__" ++ s
          (setP props1 uf (vStr user), addName internal uf)
        | none => (props1, internal)
      saveLoopFeat att sfx user rest props2 internal2
        (saved ++ [(k, slug)]) (cls ++ [Call.saveAtt slug])

/-- The previous-record scan of EditFeatureMultipart.put (490-498): any
non-empty stored attachment value differing from the incoming value is
removed from storage immediately — *before* the Record Store update. -/
def prevScan (prevProps : Props) (sfx : Option String) (user : String) :
    List String → Props → List String → List Call → Props × List String × List Call
  | [], props, internal, cls => (props, internal, cls)
  | k :: rest, props, internal, cls =>
    match lookupP prevProps k with
    | none => prevScan prevProps sfx user rest props internal cls
    | some pv =>
      if pyTruthy pv && startsWithS (pyStr pv) "attachment://" &&
         !(pyEq ((lookupP props k).getD vNull) pv) then
        let cls1 := cls ++ [Call.removeAtt (pyLstrip (pyStr pv) "attachment://")]
        let (props1, internal1) :=
          match sfx with
          | some s =>
            let uf := k ++ "__" ++ s
            (setP props uf (vStr user), addName internal uf)
          | none => (props, internal)
        prevScan prevProps sfx user rest props1 internal1 cls1
      else prevScan prevProps sfx user rest props internal cls

/-- Result of the single-record multipart endpoints. -/
inductive EditResult where
  | ok (props : Props) (calls : List Call)
  | httpAbort (code : Nat) (msg : String) (calls : List Call)
  deriving DecidableEq, Repr

/-- EditFeatureMultipart.put (server.py 439-512) over oracles: validate and
save uploads, the previous-record scan (removing superseded old attachments
before the write), Record Store update; on update error the slugs saved in
this call are removed and the request aborts with the error. -/
def editPut (att : AttStore) (showRes : Option Props) (updF : Props → Except StoreErr Feat)
    (ds : String) (idn : Int) (sfx : Option String) (user : String)
    (fileKeys : List String) (props : Props) : EditResult :=
  match validateAll att fileKeys with
  | some k => .httpAbort 404 ("Attachment validation failed: " ++ k) []
  | none =>
    match saveLoopFeat att sfx user fileKeys props [] [] [] with
    | .fail k cls => .httpAbort 404 ("Failed to save attachment: " ++ k) cls
    | .ok props1 internal1 saved1 cls1 =>
      let scan : Props × List String × List Call :=
        match showRes with
        | none => (props1, internal1, cls1)
        | some prevProps =>
            prevScan prevProps sfx user (props1.map (fun kv => kv.1)) props1 internal1 cls1
      let props2 := scan.1
      let internal2 := scan.2.1
      let cls3 := scan.2.2 ++ [Call.update ds (vInt idn) props2]
      match updF props2 with
      | .ok f => .ok (f.props.filter (fun kv => !(internal2.contains kv.1))) cls3
      | .error e =>
          .httpAbort e.code e.msg (cls3 ++ saved1.map (fun kv => Call.removeAtt kv.2))

/-- CreateFeatureMultipart.post (server.py 365-423) over oracles. -/
def createPost (att : AttStore) (createF : Props → Except StoreErr Feat)
    (ds : String) (sfx : Option String) (user : String)
    (fileKeys : List String) (props : Props) : EditResult :=
  match validateAll att fileKeys with
  | some k => .httpAbort 404 ("Attachment validation failed: " ++ k) []
  | none =>
    match saveLoopFeat att sfx user fileKeys props [] [] [] with
    | .fail k cls => .httpAbort 404 ("Failed to save attachment: " ++ k) cls
    | .ok props1 internal1 saved1 cls1 =>
      let cls2 := cls1 ++ [Call.create ds props1]
      match createF props1 with
      | .ok f => .ok (f.props.filter (fun kv => !(internal1.contains kv.1))) cls2
      | .error e =>
          .httpAbort e.code e.msg (cls2 ++ saved1.map (fun kv => Call.removeAtt kv.2))

/-- Attachment files on disk (a list of distinct slugs) after a call trace. -/
def diskAfter : List String → List Call → List String
  | d, [] => d
  | d, Call.saveAtt s :: rest => diskAfter (if d.contains s then d else d ++ [s]) rest
  | d, Call.removeAtt s :: rest => diskAfter (d.filter (fun x => !(decide (x = s)))) rest
  | d, _ :: rest => diskAfter d rest

/-- A Record Store oracle whose data mutations all fail (for concrete runs). -/
def failStore : Store :=
  { show_ := fun _ _ => none
  , create := fun _ _ _ => .error ⟨"err", 404, []⟩
  , update := fun _ _ _ => .error ⟨"err", 404, []⟩
  , destroy := fun _ _ => .error ⟨"err", 404, []⟩ }

/-- A Record Store oracle that accepts creates, echoing the entry under id 42. -/
def createOkStore : Store :=
  { failStore with create := fun _ _ p => .ok ⟨vInt 42, p⟩ }

/-- Oracle for the attachment-swap scenario: the stored child record holds
attachment old1 on field f and attachment xb on field g; updates fail. -/
def swapStore : Store :=
  { failStore with
      show_ := fun _ _ =>
        some [("parent_id", vInt 7), ("f", vStr "attachment://old1"),
              ("g", vStr "attachment://xb")] }

/-- Oracle for the delete scenarios: the stored child record's photo field is
attachment://x1; destroy succeeds. -/
def delStore : Store :=
  { failStore with
      show_ := fun _ _ => some [("parent_id", vInt 7), ("photo", vStr "attachment://x1")],
      destroy := fun _ _ => .ok () }

/-- Attachment Store oracle: validation passes, every save fails. -/
def noSaveAtt : AttStore := ⟨fun _ => true, fun _ => none⟩

/-- Attachment Store oracle that saves only the relations file key
"file:a__b__0" (as slug s1) and fails any other save. -/
def oneSaveAtt : AttStore :=
  ⟨fun _ => true, fun k => if k = "file:a__b__0" then some "s1" else none⟩

/-- Attachment Store oracle whose saves all yield the slug xph. -/
def alwaysSaveAtt : AttStore := ⟨fun _ => true, fun _ => some "xph"⟩

/-! ### Basic lemmas about the string and dict helpers -/

theorem strOf_chars (s : String) : strOf (chars s) = s := rfl

theorem strEq_of_data {a b : String} (h : a.data = b.data) : a = b := by
  cases a; cases b; exact congrArg String.mk h

theorem chars_append (a b : String) : chars (a ++ b) = chars a ++ chars b := by
  cases a; cases b; rfl

theorem isPre_append (a b : List Char) : isPre a (a ++ b) = true := by
  induction a with
  | nil => rfl
  | cons c t ih => simp [isPre, ih]

theorem isPre_iff (p l : List Char) : isPre p l = true ↔ ∃ t, l = p ++ t := by
  induction p generalizing l with
  | nil => simp [isPre]
  | cons a as ih =>
    cases l with
    | nil =>
      constructor
      · intro h; simp [isPre] at h
      · rintro ⟨t, ht⟩; simp at ht
    | cons b bs =>
      simp only [isPre, Bool.and_eq_true, beq_iff_eq, ih]
      constructor
      · rintro ⟨rfl, t, rfl⟩; exact ⟨t, rfl⟩
      · rintro ⟨t, ht⟩
        injection ht with h1 h2
        exact ⟨h1.symm, t, h2⟩

theorem startsWithS_append (a b : String) : startsWithS (a ++ b) a = true := by
  unfold startsWithS
  rw [chars_append]
  exact isPre_append _ _

theorem dropS_append (a b : String) : dropS (a ++ b) (lenS a) = b := by
  unfold dropS lenS
  rw [chars_append, List.drop_left]
  rfl

theorem eq_append_of_startsWithS {k p : String} (h : startsWithS k p = true) :
    k = p ++ dropS k (lenS p) := by
  unfold startsWithS at h
  obtain ⟨t, ht⟩ := (isPre_iff (chars p) (chars k)).mp h
  apply strEq_of_data
  show chars k = chars (p ++ dropS k (lenS p))
  rw [chars_append]
  unfold dropS lenS
  show chars k = chars p ++ (chars k).drop (chars p).length
  rw [ht, List.drop_left]

theorem pyEq_refl (v : Value) : pyEq v v = true := by
  cases v <;> simp [pyEq]

theorem lookupP_setP_self (p : Props) (k : String) (v : Value) :
    lookupP (setP p k v) k = some v := by
  induction p with
  | nil => simp [setP, lookupP]
  | cons kv t ih =>
    by_cases h : kv.1 = k
    · simp [setP, h, lookupP]
    · simp [setP, h, lookupP, ih]

theorem lookupP_setP_ne (p : Props) {k k' : String} (v : Value) (h : k ≠ k') :
    lookupP (setP p k v) k' = lookupP p k' := by
  induction p with
  | nil => simp [setP, lookupP, h]
  | cons kv t ih =>
    by_cases h2 : kv.1 = k
    · simp [setP, h2, lookupP, h]
    · simp [setP, h2, lookupP, ih]

theorem lookupP_isSome_of_mem {props : Props} {k : String}
    (h : k ∈ props.map Prod.fst) : (lookupP props k).isSome := by
  induction props with
  | nil => simp at h
  | cons kv t ih =>
    obtain ⟨k0, v0⟩ := kv
    simp only [lookupP]
    by_cases h2 : k0 = k
    · rw [if_pos h2]; rfl
    · rw [if_neg h2]
      apply ih
      simp only [List.map_cons, List.mem_cons] at h
      rcases h with h | h
      · exact absurd h.symm h2
      · exact h

theorem lookupP_isSome_setP {props : Props} {k : String} (k' : String) (v : Value)
    (h : (lookupP props k).isSome) : (lookupP (setP props k' v) k).isSome := by
  by_cases he : k' = k
  · subst he; rw [lookupP_setP_self]; rfl
  · rw [lookupP_setP_ne _ _ he]; exact h

theorem lookupP_unpfx (p : String) (props : Props) (s : String) :
    lookupP (unpfx p props) s = lookupP props (p ++ s) := by
  induction props with
  | nil => simp [unpfx, lookupP]
  | cons kv t ih =>
    obtain ⟨k, v⟩ := kv
    have hstep : unpfx p ((k, v) :: t) =
        if startsWithS k p = true then (dropS k (lenS p), v) :: unpfx p t
        else unpfx p t := by
      by_cases h : startsWithS k p = true <;> simp [unpfx, List.filter_cons, h]
    by_cases h : startsWithS k p = true
    · rw [hstep, if_pos h]
      by_cases h2 : dropS k (lenS p) = s
      · have hk : k = p ++ s := by
          have h3 := eq_append_of_startsWithS h
          rw [h2] at h3
          exact h3
        simp only [lookupP]
        rw [if_pos h2, if_pos hk]
      · have hk : ¬ k = p ++ s := by
          intro he
          apply h2
          rw [he, dropS_append]
        simp only [lookupP]
        rw [if_neg h2, if_neg hk]
        exact ih
    · rw [hstep, if_neg h]
      have hk : ¬ k = p ++ s := by
        intro he
        rw [he] at h
        exact h (startsWithS_append p s)
      simp only [lookupP]
      rw [if_neg hk]
      exact ih

/-! ### Branch lemmas for the per-record step of Relations.post -/

theorem procRec_fkErr (store : Store) (sfx : Option String) (user : String) (pid : Int)
    (tbl fkField : String) (internalFields : List String) (rec : Props)
    (hnew : pyEq ((lookupP rec "__status__").getD (vStr "")) (vStr "new") = false)
    (hfk : pyEq ((lookupP rec ((tbl ++ "__") ++ fkField)).getD vNull) (vInt pid) = false) :
    processRecord store sfx user pid tbl fkField internalFields rec =
      .ok { out := [⟨setP rec "__error__" (vStr "FK validation failed"), none⟩],
            haserr := true, calls := [] } := by
  unfold processRecord
  simp [hnew, hfk]

theorem procRec_noStatus (store : Store) (sfx : Option String) (user : String) (pid : Int)
    (tbl fkField : String) (internalFields : List String) (rec : Props)
    (hst : lookupP rec "__status__" = none)
    (hfk : pyEq ((lookupP rec ((tbl ++ "__") ++ fkField)).getD vNull) (vInt pid) = true) :
    processRecord store sfx user pid tbl fkField internalFields rec =
      .ok { out := [⟨rec, none⟩], haserr := false, calls := [] } := by
  have h1 : pyEq (vStr "") (vStr "new") = false := by decide
  unfold processRecord
  simp [hst, h1, hfk]

theorem procRec_new (store : Store) (sfx : Option String) (user : String) (pid : Int)
    (tbl fkField : String) (internalFields : List String) (rec : Props)
    (hnew : pyEq ((lookupP rec "__status__").getD (vStr "")) (vStr "new") = true)
    (hkey : (tbl ++ "__") ++ fkField ≠ "__status__") :
    processRecord store sfx user pid tbl fkField internalFields rec =
      .ok (finishStore tbl (tableInternal (tbl ++ "__") internalFields)
            (setP rec ((tbl ++ "__") ++ fkField) (vInt pid))
            (store.create tbl
              ((lookupP (setP rec ((tbl ++ "__") ++ fkField) (vInt pid)) "id").getD vNull)
              (unpfx (tbl ++ "__") (setP rec ((tbl ++ "__") ++ fkField) (vInt pid))))
            [Call.create tbl (unpfx (tbl ++ "__") (setP rec ((tbl ++ "__") ++ fkField) (vInt pid)))]) ∧
    lookupP (unpfx (tbl ++ "__") (setP rec ((tbl ++ "__") ++ fkField) (vInt pid))) fkField
      = some (vInt pid) := by
  have hs : lookupP rec "__status__" = some (vStr "new") := by
    cases h : lookupP rec "__status__" with
    | none =>
      rw [h] at hnew
      simp [pyEq] at hnew
    | some v =>
      rw [h] at hnew
      cases v with
      | vStr s =>
        simp only [Option.getD_some, pyEq, decide_eq_true_eq] at hnew
        rw [hnew]
      | vInt n => simp [pyEq] at hnew
      | vBool b => simp [pyEq] at hnew
      | vNull => simp [pyEq] at hnew
  have hfkset : lookupP (setP rec ((tbl ++ "__") ++ fkField) (vInt pid)) ((tbl ++ "__") ++ fkField)
      = some (vInt pid) := lookupP_setP_self _ _ _
  have hstset : lookupP (setP rec ((tbl ++ "__") ++ fkField) (vInt pid)) "__status__"
      = some (vStr "new") := by rw [lookupP_setP_ne _ _ hkey, hs]
  constructor
  · unfold processRecord
    simp [hnew, hfkset, hstset, pyEq_refl]
  · rw [lookupP_unpfx]
    exact hfkset

theorem procRec_changed (store : Store) (sfx : Option String) (user : String) (pid : Int)
    (tbl fkField : String) (internalFields : List String) (rec : Props) (idv : Value)
    (na oa : List String) (props2 : Props) (tif2 : List String)
    (hst : lookupP rec "__status__" = some (vStr "changed"))
    (hfk : pyEq ((lookupP rec ((tbl ++ "__") ++ fkField)).getD vNull) (vInt pid) = true)
    (hid : lookupP rec "id" = some idv)
    (hdiff : attachments_diff (store.show_ tbl idv) (unpfx (tbl ++ "__") rec)
        (tableInternal (tbl ++ "__") internalFields) sfx user false = .ok (na, oa, props2, tif2)) :
    processRecord store sfx user pid tbl fkField internalFields rec =
      .ok (finishStore tbl tif2 rec (store.update tbl idv props2)
            (Call.update tbl idv props2 ::
              (cleanup_calls (match store.update tbl idv props2 with
                              | .error _ => na
                              | .ok _ => oa)).map Call.removeAtt)) := by
  have h1 : pyEq (vStr "changed") (vStr "new") = false := by decide
  have h2 : pyEq (vStr "changed") (vStr "changed") = true := by decide
  unfold processRecord
  simp [hst, hfk, hid, hdiff, h1, h2]

theorem procRec_deleted (store : Store) (sfx : Option String) (user : String) (pid : Int)
    (tbl fkField : String) (internalFields : List String) (rec : Props) (s : String) (idv : Value)
    (na oa : List String) (props2 : Props) (tif2 : List String)
    (hst : lookupP rec "__status__" = some (vStr s))
    (hdel : startsWithS s "deleted" = true)
    (hsnew : s ≠ "new") (hsch : s ≠ "changed")
    (hfk : pyEq ((lookupP rec ((tbl ++ "__") ++ fkField)).getD vNull) (vInt pid) = true)
    (hid : lookupP rec "id" = some idv)
    (hdiff : attachments_diff (store.show_ tbl idv) (unpfx (tbl ++ "__") rec)
        (tableInternal (tbl ++ "__") internalFields) sfx user true = .ok (na, oa, props2, tif2)) :
    processRecord store sfx user pid tbl fkField internalFields rec =
      .ok (finishDestroy rec (store.destroy tbl idv)
            ((if sfx.isSome then [Call.update tbl idv props2] else []) ++ [Call.destroy tbl idv] ++
              (cleanup_calls (match store.destroy tbl idv with
                              | .error _ => na
                              | .ok _ => oa)).map Call.removeAtt)) := by
  have h1 : pyEq (vStr s) (vStr "new") = false := by
    simp only [pyEq]
    rw [decide_eq_false_iff_not]
    exact hsnew
  have h2 : pyEq (vStr s) (vStr "changed") = false := by
    simp only [pyEq]
    rw [decide_eq_false_iff_not]
    exact hsch
  unfold processRecord
  simp [hst, hdel, hfk, hid, hdiff, h1, h2]

theorem procRec_other (store : Store) (sfx : Option String) (user : String) (pid : Int)
    (tbl fkField : String) (internalFields : List String) (rec : Props) (s : String)
    (hst : lookupP rec "__status__" = some (vStr s))
    (hsnew : s ≠ "new") (hsch : s ≠ "changed")
    (hdel : startsWithS s "deleted" = false)
    (hfk : pyEq ((lookupP rec ((tbl ++ "__") ++ fkField)).getD vNull) (vInt pid) = true) :
    processRecord store sfx user pid tbl fkField internalFields rec =
      .ok { out := [], haserr := false, calls := [] } := by
  have h1 : pyEq (vStr s) (vStr "new") = false := by
    simp only [pyEq]
    rw [decide_eq_false_iff_not]
    exact hsnew
  have h2 : pyEq (vStr s) (vStr "changed") = false := by
    simp only [pyEq]
    rw [decide_eq_false_iff_not]
    exact hsch
  unfold processRecord
  simp [hst, h1, h2, hdel, hfk]

/-! ### Error-flag propagation through the batch loops -/

theorem recordsLoop_he_true (store : Store) (sfx : Option String) (user : String) (pid : Int)
    (tbl f : String) (ifs : List String) (records : List Props) :
    ∀ outs cls o he2 c,
      recordsLoop store sfx user pid tbl f ifs records outs true cls = .ok (o, he2, c) →
      he2 = true := by
  induction records with
  | nil =>
    intro outs cls o he2 c h
    simp only [recordsLoop] at h
    injection h with h2
    injection h2 with _ h3
    injection h3 with h4 _
    exact h4.symm
  | cons r rest ih =>
    intro outs cls o he2 c h
    simp only [recordsLoop] at h
    cases hp : processRecord store sfx user pid tbl f ifs r with
    | error e => rw [hp] at h; exact absurd h (by simp)
    | ok ro =>
      rw [hp] at h
      simp only [Bool.true_or] at h
      exact ih _ _ _ _ _ h

theorem recordsLoop_he_of_mem (store : Store) (sfx : Option String) (user : String) (pid : Int)
    (tbl f : String) (ifs : List String) (records : List Props) (rec : Props) (ro : RecOut)
    (hmem : rec ∈ records)
    (hrec : processRecord store sfx user pid tbl f ifs rec = .ok ro)
    (herr : ro.haserr = true) :
    ∀ outs he cls o he2 c,
      recordsLoop store sfx user pid tbl f ifs records outs he cls = .ok (o, he2, c) →
      he2 = true := by
  induction records with
  | nil => simp at hmem
  | cons r rest ih =>
    intro outs he cls o he2 c h
    rcases List.mem_cons.mp hmem with heq | hmem2
    · subst heq
      simp only [recordsLoop, hrec] at h
      rw [herr] at h
      simp only [Bool.or_true] at h
      exact recordsLoop_he_true store sfx user pid tbl f ifs rest _ _ _ _ _ h
    · simp only [recordsLoop] at h
      cases hp : processRecord store sfx user pid tbl f ifs r with
      | error e => rw [hp] at h; exact absurd h (by simp)
      | ok ro2 =>
        rw [hp] at h
        exact ih hmem2 _ _ _ _ _ _ h

theorem processTable_he_true (store : Store) (sfx : Option String) (user : String) (pid : Int)
    (ifs : List String) (tbl : String) (rd : RelData) (tout : TableOut) (he2 : Bool)
    (c : List Call)
    (h : processTable store sfx user pid ifs tbl rd true = .ok (tout, he2, c)) :
    he2 = true := by
  unfold processTable at h
  split at h
  · injection h with h2
    injection h2 with _ h3
    injection h3 with h4 _
    exact h4.symm
  · split at h
    · rename_i f2 _
      split at h
      · exact absurd h (by simp)
      · rename_i res outs he3 cls hl
        have h4 := recordsLoop_he_true store sfx user pid tbl f2 ifs rd.records _ _ _ _ _ hl
        injection h with h5
        injection h5 with _ h6
        injection h6 with h7 _
        rw [← h7]
        exact h4
    · exact absurd h (by simp)

theorem processTable_he_of_mem (store : Store) (sfx : Option String) (user : String) (pid : Int)
    (ifs : List String) (tbl : String) (rd : RelData) (f : String) (rec : Props) (ro : RecOut)
    (hf : rd.fk = some (vStr f))
    (hmem : rec ∈ rd.records)
    (hrec : processRecord store sfx user pid tbl f ifs rec = .ok ro)
    (herr : ro.haserr = true) :
    ∀ he tout he2 c,
      processTable store sfx user pid ifs tbl rd he = .ok (tout, he2, c) → he2 = true := by
  intro he tout he2 c h
  unfold processTable at h
  split at h
  · rename_i hr
    rw [hr] at hmem
    simp at hmem
  · split at h
    · rename_i f2 hf2
      rw [hf] at hf2
      injection hf2 with h2
      injection h2 with h3
      split at h
      · exact absurd h (by simp)
      · rename_i res outs he3 cls hl
        have hrec2 : processRecord store sfx user pid tbl f2 ifs rec = .ok ro := by
          rw [← h3]
          exact hrec
        have h4 := recordsLoop_he_of_mem store sfx user pid tbl f2 ifs rd.records rec ro
          hmem hrec2 herr _ _ _ _ _ _ hl
        injection h with h5
        injection h5 with _ h6
        injection h6 with h7 _
        rw [← h7]
        exact h4
    · rename_i hx
      exact absurd hf (hx f)

theorem coreLoop_he_true (store : Store) (sfx : Option String) (user : String) (pid : Int)
    (ifs : List String) (payload : Payload) :
    ∀ acc cls rv he c,
      coreLoop store sfx user pid ifs payload acc true cls = .ok (rv, he, c) → he = true := by
  induction payload with
  | nil =>
    intro acc cls rv he c h
    simp only [coreLoop] at h
    injection h with h2
    injection h2 with _ h3
    injection h3 with h4 _
    exact h4.symm
  | cons hd rest ih =>
    intro acc cls rv he c h
    obtain ⟨tbl, rd⟩ := hd
    simp only [coreLoop] at h
    cases hp : processTable store sfx user pid ifs tbl rd true with
    | error e => rw [hp] at h; exact absurd h (by simp)
    | ok res =>
      obtain ⟨tout, he2, cls2⟩ := res
      rw [hp] at h
      have h2 := processTable_he_true store sfx user pid ifs tbl rd tout he2 cls2 hp
      subst h2
      exact ih _ _ _ _ _ h

theorem coreLoop_he_of_mem (store : Store) (sfx : Option String) (user : String) (pid : Int)
    (ifs : List String) (payload : Payload) (tbl : String) (rd : RelData) (f : String)
    (rec : Props) (ro : RecOut)
    (hmem : (tbl, rd) ∈ payload)
    (hf : rd.fk = some (vStr f))
    (hrmem : rec ∈ rd.records)
    (hrec : processRecord store sfx user pid tbl f ifs rec = .ok ro)
    (herr : ro.haserr = true) :
    ∀ acc he cls rv he2 c,
      coreLoop store sfx user pid ifs payload acc he cls = .ok (rv, he2, c) → he2 = true := by
  induction payload with
  | nil => simp at hmem
  | cons hd rest ih =>
    intro acc he cls rv he2 c h
    rcases List.mem_cons.mp hmem with heq | hmem2
    · subst heq
      simp only [coreLoop] at h
      cases hp : processTable store sfx user pid ifs tbl rd he with
      | error e => rw [hp] at h; exact absurd h (by simp)
      | ok res =>
        obtain ⟨tout, he3, cls2⟩ := res
        rw [hp] at h
        have h2 := processTable_he_of_mem store sfx user pid ifs tbl rd f rec ro
          hf hrmem hrec herr _ _ _ _ hp
        subst h2
        exact coreLoop_he_true store sfx user pid ifs rest _ _ _ _ _ h
    · obtain ⟨tbl2, rd2⟩ := hd
      simp only [coreLoop] at h
      cases hp : processTable store sfx user pid ifs tbl2 rd2 he with
      | error e => rw [hp] at h; exact absurd h (by simp)
      | ok res =>
        obtain ⟨tout, he3, cls2⟩ := res
        rw [hp] at h
        exact ih hmem2 _ _ _ _ _ _ h

/-- Any record-level error (a Store error or an FK failure) forces the aggregate
`success` flag of Relations.post to false. -/
theorem relationsPost_success_of_err (store : Store) (att : AttStore) (sfx : Option String)
    (user : String) (pid : Int) (payload : Payload) (tbl : String) (rd : RelData) (f : String)
    (rec : Props) (ro : RecOut)
    (hmem : (tbl, rd) ∈ payload)
    (hf : rd.fk = some (vStr f))
    (hrmem : rec ∈ rd.records)
    (hrec : processRecord store sfx user pid tbl f [] rec = .ok ro)
    (herr : ro.haserr = true) :
    ∀ rv succ cs,
      relationsPost store att true sfx user pid [] payload = .ok rv succ cs → succ = false := by
  intro rv succ cs h
  unfold relationsPost at h
  simp only [Bool.not_true, validateAll, saveLoopRel] at h
  cases hc : coreLoop store sfx user pid [] payload [] false [] with
  | error e => rw [hc] at h; exact absurd h (by simp)
  | ok res =>
    obtain ⟨rv2, he, cls2⟩ := res
    rw [hc] at h
    have h2 := coreLoop_he_of_mem store sfx user pid [] payload tbl rd f rec ro
      hmem hf hrmem hrec herr _ _ _ _ _ _ hc
    subst h2
    injection h with h3 h4 h5
    rw [← h4]
    rfl

/-! ### Decomposition of the attachment save loops -/

theorem saveLoopRel_fail_decomp (att : AttStore) (sfx : Option String) (user : String) :
    ∀ (keys : List String) (payload : Payload) (internal : List String)
      (saved : List (String × String)) (cls : List Call) (k : String) (cls2 : List Call),
      saveLoopRel att sfx user keys payload internal saved cls = .fail k cls2 →
      att.save k = none ∧
      ∃ ds : List String,
        cls2 = cls ++ ds.map Call.saveAtt ++
          (saved.map (fun kv => kv.2) ++ ds).map Call.removeAtt := by
  intro keys
  induction keys with
  | nil =>
    intro payload internal saved cls k cls2 h
    exact absurd h (by simp [saveLoopRel])
  | cons x rest ih =>
    intro payload internal saved cls k cls2 h
    simp only [saveLoopRel] at h
    split at h
    · rename_i hs
      injection h with h1 h2
      subst h1
      refine ⟨hs, [], ?_⟩
      simp [← h2]
    · rename_i slug hs
      split at h
      · exact RelSave.noConfusion h
      · rename_i payload2 internal2 hb
        obtain ⟨h1, ds, h2⟩ := ih payload2 internal2 (saved ++ [(x, slug)])
          (cls ++ [Call.saveAtt slug]) k cls2 h
        refine ⟨h1, slug :: ds, ?_⟩
        rw [h2]
        simp

theorem saveLoopFeat_fail_decomp (att : AttStore) (sfx : Option String) (user : String) :
    ∀ (keys : List String) (props : Props) (internal : List String)
      (saved : List (String × String)) (cls : List Call) (k : String) (cls2 : List Call),
      saveLoopFeat att sfx user keys props internal saved cls = .fail k cls2 →
      att.save k = none ∧
      ∃ ds : List String,
        cls2 = cls ++ ds.map Call.saveAtt ++
          (saved.map (fun kv => kv.2) ++ ds).map Call.removeAtt := by
  intro keys
  induction keys with
  | nil =>
    intro props internal saved cls k cls2 h
    exact absurd h (by simp [saveLoopFeat])
  | cons x rest ih =>
    intro props internal saved cls k cls2 h
    simp only [saveLoopFeat] at h
    split at h
    · rename_i hs
      injection h with h1 h2
      subst h1
      refine ⟨hs, [], ?_⟩
      simp [← h2]
    · rename_i slug hs
      obtain ⟨h1, ds, h2⟩ := ih _ _ (saved ++ [(x, slug)]) (cls ++ [Call.saveAtt slug]) k cls2 h
      refine ⟨h1, slug :: ds, ?_⟩
      rw [h2]
      simp

theorem saveLoopFeat_ok_decomp (att : AttStore) (sfx : Option String) (user : String) :
    ∀ (keys : List String) (props : Props) (internal : List String)
      (saved : List (String × String)) (cls : List Call) (p1 : Props) (i1 : List String)
      (s1 : List (String × String)) (c1 : List Call),
      saveLoopFeat att sfx user keys props internal saved cls = .ok p1 i1 s1 c1 →
      ∃ ds : List (String × String),
        s1 = saved ++ ds ∧ c1 = cls ++ ds.map (fun kv => Call.saveAtt kv.2) := by
  intro keys
  induction keys with
  | nil =>
    intro props internal saved cls p1 i1 s1 c1 h
    simp only [saveLoopFeat] at h
    injection h with h1 h2 h3 h4
    exact ⟨[], by simp [← h3], by simp [← h4]⟩
  | cons x rest ih =>
    intro props internal saved cls p1 i1 s1 c1 h
    simp only [saveLoopFeat] at h
    split at h
    · exact FeatSave.noConfusion h
    · rename_i slug hs
      obtain ⟨ds, h1, h2⟩ := ih _ _ (saved ++ [(x, slug)]) (cls ++ [Call.saveAtt slug])
        p1 i1 s1 c1 h
      refine ⟨(x, slug) :: ds, ?_, ?_⟩
      · rw [h1]; simp
      · rw [h2]; simp

/-! ### Disk-content lemmas -/

theorem diskAfter_append (a b : List Call) : ∀ d, diskAfter d (a ++ b) = diskAfter (diskAfter d a) b := by
  induction a with
  | nil => intro d; rfl
  | cons c rest ih =>
    intro d
    cases c <;> simp only [List.cons_append, diskAfter] <;> exact ih _

theorem mem_diskAfter_saves {x : String} (l : List String) :
    ∀ d, x ∈ diskAfter d (l.map Call.saveAtt) → x ∈ d ∨ x ∈ l := by
  induction l with
  | nil => intro d h; exact Or.inl h
  | cons s rest ih =>
    intro d h
    simp only [List.map_cons, diskAfter] at h
    rcases ih _ h with h2 | h2
    · by_cases hc : d.contains s
      · rw [if_pos hc] at h2
        exact Or.inl h2
      · rw [if_neg hc] at h2
        rcases List.mem_append.mp h2 with h3 | h3
        · exact Or.inl h3
        · simp at h3
          subst h3
          exact Or.inr (List.mem_cons_self _ _)
    · exact Or.inr (List.mem_cons_of_mem _ h2)

theorem mem_diskAfter_removes {x : String} (l : List String) :
    ∀ d, x ∈ diskAfter d (l.map Call.removeAtt) → x ∈ d ∧ x ∉ l := by
  induction l with
  | nil =>
    intro d h
    exact ⟨h, by simp⟩
  | cons s rest ih =>
    intro d h
    simp only [List.map_cons, diskAfter] at h
    obtain ⟨h1, h2⟩ := ih _ h
    rw [List.mem_filter] at h1
    obtain ⟨h3, h4⟩ := h1
    have h5 : x ≠ s := by
      intro he
      rw [he] at h4
      simp at h4
    refine ⟨h3, ?_⟩
    intro hm
    rcases List.mem_cons.mp hm with h6 | h6
    · exact h5 h6
    · exact h2 h6

/-- A trace that saves a set of slugs and then removes exactly those slugs
leaves nothing new on disk. -/
theorem diskAfter_save_remove_subset {x : String} (ds : List String) (d : List String)
    (h : x ∈ diskAfter d (ds.map Call.saveAtt ++ ds.map Call.removeAtt)) : x ∈ d := by
  rw [diskAfter_append] at h
  obtain ⟨h1, h2⟩ := mem_diskAfter_removes ds _ h
  rcases mem_diskAfter_saves ds _ h1 with h3 | h3
  · exact h3
  · exact absurd h3 h2

/-! ### Lemmas about the attachment diff -/

theorem diffLoop_self (props : Props) (sfx : Option String) (user : String) :
    ∀ (keys : List String) (internal : List String) (na oa : List String),
      (∀ k ∈ keys, (lookupP props k).isSome) →
      diffLoop props sfx user false keys props internal na oa = .ok (na, oa, props, internal) := by
  intro keys
  induction keys with
  | nil => intro internal na oa _; rfl
  | cons k rest ih =>
    intro internal na oa hall
    have h1 : (lookupP props k).isSome := hall k (List.mem_cons_self _ _)
    obtain ⟨v, hv⟩ := Option.isSome_iff_exists.mp h1
    simp only [diffLoop, hv, pyEq_refl, Bool.not_true, Bool.or_false, Bool.false_eq_true,
      if_false]
    exact ih _ _ _ (fun k2 hk2 => hall k2 (List.mem_cons_of_mem _ hk2))

theorem diffLoop_mono (prevProps : Props) (sfx : Option String) (user : String) (rd : Bool) :
    ∀ (keys : List String) (props : Props) (internal na oa : List String) (r : DiffOut),
      diffLoop prevProps sfx user rd keys props internal na oa = .ok r →
      (∀ x ∈ na, x ∈ r.1) ∧ (∀ x ∈ oa, x ∈ r.2.1) := by
  intro keys
  induction keys with
  | nil =>
    intro props internal na oa r h
    injection h with h1
    subst h1
    exact ⟨fun x hx => hx, fun x hx => hx⟩
  | cons k rest ih =>
    intro props internal na oa r h
    simp only [diffLoop] at h
    split at h
    · exact Except.noConfusion h
    · rename_i v hv
      split at h
      · split at h
        · exact Except.noConfusion h
        · rename_i pv hpv
          obtain ⟨hna, hoa⟩ := ih _ _ _ _ _ h
          constructor
          · intro x hx
            apply hna
            by_cases hsw : startsWithS (pyStr v) "attachment://" = true
            · rw [if_pos hsw]
              exact List.mem_append_left _ hx
            · rw [if_neg hsw]
              exact hx
          · intro x hx
            apply hoa
            by_cases hsw : startsWithS (pyStr pv) "attachment://" = true
            · rw [if_pos hsw]
              exact List.mem_append_left _ hx
            · rw [if_neg hsw]
              exact hx
      · exact ih _ _ _ _ _ h

theorem diffLoop_oa_of_rd (prevProps : Props) (sfx : Option String) (user : String) :
    ∀ (keys : List String) (props : Props) (internal na oa : List String) (r : DiffOut)
      (k : String) (pv : Value),
      k ∈ keys →
      lookupP prevProps k = some pv →
      startsWithS (pyStr pv) "attachment://" = true →
      diffLoop prevProps sfx user true keys props internal na oa = .ok r →
      pyStr pv ∈ r.2.1 := by
  intro keys
  induction keys with
  | nil => intro props internal na oa r k pv hmem; simp at hmem
  | cons k2 rest ih =>
    intro props internal na oa r k pv hmem hpv hsw h
    simp only [diffLoop] at h
    rcases List.mem_cons.mp hmem with heq | hmem2
    · subst heq
      split at h
      · exact Except.noConfusion h
      · rename_i v hv
        split at h
        · split at h
          · rename_i hpv2
            rw [hpv] at hpv2
            exact Option.noConfusion hpv2
          · rename_i pv2 hpv2
            rw [hpv] at hpv2
            injection hpv2 with hpv3
            subst hpv3
            obtain ⟨hna, hoa⟩ := diffLoop_mono prevProps sfx user true _ _ _ _ _ _ h
            apply hoa
            rw [hsw]
            simp
        · rename_i hc
          rw [Bool.or_true] at hc
          exact absurd rfl hc
    · split at h
      · exact Except.noConfusion h
      · rename_i v hv
        split at h
        · split at h
          · exact Except.noConfusion h
          · exact ih _ _ _ _ _ _ _ hmem2 hpv hsw h
        · exact ih _ _ _ _ _ _ _ hmem2 hpv hsw h

theorem lookupP_uploadMutP (sfx : Option String) (hit : Bool) (props : Props)
    (k2 user k : String) (h : ∀ s, sfx = some s → ∀ k0, k ≠ k0 ++ "__" ++ s) :
    lookupP (uploadMutP sfx hit props k2 user) k = lookupP props k := by
  cases sfx with
  | none => cases hit <;> rfl
  | some s =>
    cases hit with
    | false => rfl
    | true => exact lookupP_setP_ne _ _ (fun he => h s rfl k2 he.symm)

theorem diffLoop_repl (prevProps : Props) (sfx : Option String) (user : String) :
    ∀ (keys : List String) (props : Props) (internal na oa : List String) (r : DiffOut)
      (k : String) (ra rb : String),
      k ∈ keys →
      lookupP prevProps k = some (vStr ra) →
      lookupP props k = some (vStr rb) →
      ra ≠ rb →
      startsWithS ra "attachment://" = true →
      startsWithS rb "attachment://" = true →
      (∀ s, sfx = some s → ∀ k0, k ≠ k0 ++ "__" ++ s) →
      diffLoop prevProps sfx user false keys props internal na oa = .ok r →
      ra ∈ r.2.1 ∧ rb ∈ r.1 := by
  intro keys
  induction keys with
  | nil => intro props internal na oa r k ra rb hmem; simp at hmem
  | cons k2 rest ih =>
    intro props internal na oa r k ra rb hmem hpra hprb hne hsa hsb halias h
    simp only [diffLoop] at h
    rcases List.mem_cons.mp hmem with heq | hmem2
    · subst heq
      split at h
      · exact Except.noConfusion h
      · rename_i v hv
        rw [hprb] at hv
        injection hv with hv2
        subst hv2
        split at h
        · split at h
          · rename_i hpv2
            rw [hpra] at hpv2
            exact Option.noConfusion hpv2
          · rename_i pv2 hpv2
            rw [hpra] at hpv2
            injection hpv2 with hpv3
            subst hpv3
            obtain ⟨hna, hoa⟩ := diffLoop_mono prevProps sfx user false _ _ _ _ _ _ h
            constructor
            · apply hoa
              have hpa : pyStr (vStr ra) = ra := rfl
              rw [hpa, hsa]
              simp
            · apply hna
              have hpb : pyStr (vStr rb) = rb := rfl
              rw [hpb, hsb]
              simp
        · rename_i hc
          apply absurd _ hc
          rw [hpra]
          simp only [pyEq, Bool.or_false, Bool.not_eq_true']
          rw [decide_eq_false_iff_not]
          exact fun he => hne he.symm
    · split at h
      · exact Except.noConfusion h
      · rename_i v hv
        split at h
        · split at h
          · exact Except.noConfusion h
          · rename_i pv hpv
            have hprb2 :
                lookupP (uploadMutP sfx (startsWithS (pyStr pv) "attachment://") props k2 user) k
                  = some (vStr rb) := by
              rw [lookupP_uploadMutP _ _ _ _ _ _ halias]
              exact hprb
            exact ih _ _ _ _ _ _ _ _ hmem2 hpra hprb2 hne hsa hsb halias h
        · exact ih _ _ _ _ _ _ _ _ hmem2 hpra hprb hne hsa hsb halias h

/-- A one-table, one-record batch without uploads: the response wraps the
per-record outcome directly. -/
theorem relationsPost_single (store : Store) (att : AttStore) (sfx : Option String)
    (user : String) (pid : Int) (tbl fkField : String) (rec : Props) (ro : RecOut)
    (hr : processRecord store sfx user pid tbl fkField [] rec = .ok ro) :
    relationsPost store att true sfx user pid [] [(tbl, ⟨some (vStr fkField), [rec]⟩)] =
      .ok [(tbl, ⟨some (vStr fkField), ro.out⟩)] (!ro.haserr) ro.calls := by
  unfold relationsPost
  simp only [Bool.not_true, validateAll, saveLoopRel, coreLoop, processTable, recordsLoop, hr,
    Bool.false_or, List.nil_append, List.append_nil]
  rfl

theorem finishStore_calls (tbl : String) (tif : List String) (rec1 : Props)
    (result : Except StoreErr Feat) (cls : List Call) :
    (finishStore tbl tif rec1 result cls).calls = cls := by
  cases result <;> rfl

theorem finishStore_out_length (tbl : String) (tif : List String) (rec1 : Props)
    (result : Except StoreErr Feat) (cls : List Call) :
    (finishStore tbl tif rec1 result cls).out.length = 1 := by
  cases result <;> rfl

theorem finishDestroy_out_empty_iff (rec1 : Props) (result : Except StoreErr Unit)
    (cls : List Call) :
    (finishDestroy rec1 result cls).out = [] ↔ result = .ok () := by
  cases result with
  | ok u => cases u; simp [finishDestroy]
  | error e => simp [finishDestroy]

/-! ### Claim theorems -/

/-- Claim C8 (code bug): the spec says the slug handed to the Attachment Store
remove operation is exactly the slug following the "attachment://" marker, for
every possible slug, never altered. The code (Relations.cleanup_attachments,
server.py 792-794, and EditFeatureMultipart.put line 494) uses python
`slug.lstrip("attachment://")`, which strips the *character set*
a,t,c,h,m,e,n,:,/ — so for the reference "attachment://a1" (slug "a1") the
store is asked to remove "1", not "a1". -/
theorem C8_slug_mangled_by_lstrip :
    cleanup_calls ["attachment://a1"] = ["1"] ∧
    pyLstrip ("attachment://" ++ "a1") "attachment://" ≠ "a1" :=
  ⟨rfl, by decide⟩

/-- Claim C10 (code bug): a "deleted" relation record whose payload carries a
property key absent from the stored record makes attachments_diff look up
`prev_feature["properties"][key]` unguarded (the `key in prev` guard is
bypassed by `or record_deleted`, server.py line 780-781): python raises
KeyError and the whole request dies instead of the diff returning a pair of
lists will-the-batch-continue. Both the diff and the per-record step abort. -/
theorem C10_deleted_diff_raises_on_missing_key :
    attachments_diff (some [("a", vStr "1")]) [("b", vStr "2")] [] none "u" true = .error () ∧
    processRecord delStore none "u" 7 "children" "parent_id" []
      [("id", vInt 1), ("__status__", vStr "deleted"), ("children__parent_id", vInt 7),
       ("children__bogusfield", vStr "v")] = .error () :=
  ⟨rfl, rfl⟩

/-- Claim C2 counterexample: a record with the unrecognized status "x" is
silently dropped from the response (server.py 756-757 `else: continue`
appends nothing), while the claim says every input record appears in the
output regardless of its `__status__` value. Here the batch's single record
vanishes and the call even reports success. -/
theorem C2_counterexample :
    relationsPost failStore noSaveAtt true none "u" 7 []
      [("children", ⟨some (vStr "parent_id"),
         [[("children__parent_id", vInt 7), ("__status__", vStr "x")]]⟩)] =
      .ok [("children", ⟨some (vStr "parent_id"), []⟩)] true [] :=
  rfl

/-- Claim C3 counterexample: with declared child tables ["children"], a batch
naming the undeclared table "bogus" causes no client error: a status-less
record is echoed with success (silently accepted), and a "new" record IS sent
to the Record Store under the undeclared table name (Call.create "bogus").
Relations.post never consults any child-table declaration. -/
theorem C3_counterexample :
    ("bogus" ∉ (["children"] : List String)) ∧
    relationsPost failStore noSaveAtt true none "u" 7 []
      [("bogus", ⟨some (vStr "parent_id"), [[("bogus__parent_id", vInt 7)]]⟩)] =
      .ok [("bogus", ⟨some (vStr "parent_id"),
            [⟨[("bogus__parent_id", vInt 7)], none⟩]⟩)] true [] ∧
    relationsPost createOkStore noSaveAtt true none "u" 7 []
      [("bogus", ⟨some (vStr "parent_id"),
         [[("bogus__name", vStr "a"), ("__status__", vStr "new")]]⟩)] =
      .ok [("bogus", ⟨some (vStr "parent_id"),
            [⟨[("bogus__name", vStr "a"), ("bogus__parent_id", vInt 7), ("id", vInt 42)],
              none⟩]⟩)]
        true [Call.create "bogus" [("name", vStr "a"), ("parent_id", vInt 7)]] :=
  ⟨by decide, rfl, rfl⟩

/-- Claim C4 counterexample: two fields of one "changed" record swap their
attachments (f: old1 to xb, g: xb to old1). The diff's new side and old side
are the same two references; the update fails, the code cleans the new side,
and thereby removes old1 and xb — both still referenced by the stored record
after the failed write. The claim's "the old, still-valid references are
untouched" is violated. -/
theorem C4_counterexample :
    attachments_diff (swapStore.show_ "children" (vInt 1))
      [("parent_id", vInt 7), ("f", vStr "attachment://xb"), ("g", vStr "attachment://old1")]
      [] none "u" false =
      .ok (["attachment://xb", "attachment://old1"],
           ["attachment://old1", "attachment://xb"],
           [("parent_id", vInt 7), ("f", vStr "attachment://xb"),
            ("g", vStr "attachment://old1")], []) ∧
    processRecord swapStore none "u" 7 "children" "parent_id" []
      [("id", vInt 1), ("__status__", vStr "changed"), ("children__parent_id", vInt 7),
       ("children__f", vStr "attachment://xb"), ("children__g", vStr "attachment://old1")] =
      .ok ⟨[⟨[("id", vInt 1), ("__status__", vStr "changed"), ("children__parent_id", vInt 7),
              ("children__f", vStr "attachment://xb"),
              ("children__g", vStr "attachment://old1"), ("error", vStr "err")], some []⟩],
           true,
           [Call.update "children" (vInt 1)
              [("parent_id", vInt 7), ("f", vStr "attachment://xb"),
               ("g", vStr "attachment://old1")],
            Call.removeAtt "xb", Call.removeAtt "old1"]⟩ :=
  ⟨rfl, rfl⟩

/-- Claim C5 counterexample: the stored child record's photo field is
attachment://x1, but the delete payload does not carry the photo property.
Because the diff iterates the *incoming* payload's keys (server.py 778), the
stored attachment field is never treated as removed: the destroy succeeds and
x1 is NOT removed from storage, against the claim's "every attachment-bearing
field of the stored record is treated as removed" and its x1 scenario. -/
theorem C5_counterexample :
    delStore.show_ "children" (vInt 1) =
      some [("parent_id", vInt 7), ("photo", vStr "attachment://x1")] ∧
    processRecord delStore none "u" 7 "children" "parent_id" []
      [("id", vInt 1), ("__status__", vStr "deleted"), ("children__parent_id", vInt 7)] =
      .ok ⟨[], false, [Call.destroy "children" (vInt 1)]⟩ ∧
    Call.removeAtt "x1" ∉ [Call.destroy "children" (vInt 1)] :=
  ⟨rfl, rfl, by decide⟩

/-- Claim C1 counterexample: single-record multipart update without uploads;
the stored photo is attachment://old1, the incoming feature carries
attachment://new1, and the Record Store update fails. EditFeatureMultipart.put
removes old1 *before* attempting the update (server.py 490-494), so after the
failed call the disk no longer holds old1 although the stored record still
references it — the set of slugs on disk is not preserved. -/
theorem C1_counterexample :
    editPut noSaveAtt (some [("photo", vStr "attachment://old1")])
      (fun _ => .error ⟨"update failed", 422, []⟩) "ds" 1 none "u" []
      [("photo", vStr "attachment://new1")] =
      .httpAbort 422 "update failed"
        [Call.removeAtt "old1",
         Call.update "ds" (vInt 1) [("photo", vStr "attachment://new1")]] ∧
    diskAfter ["old1"]
      [Call.removeAtt "old1",
       Call.update "ds" (vInt 1) [("photo", vStr "attachment://new1")]] = [] :=
  ⟨rfl, rfl⟩

/-- Claim C6: for a record with __status__ "new" the foreign-key property is
force-set to the parent id before validation, so it passes the FK check and
is sent to the Record Store create (the un-flattened entry carries the parent
id in the fk field, and the record's only call is that create — it is not
FK-rejected); for a record with any other status whose foreign-key property
does not equal the parent id, the record is marked "__error__", echoed
otherwise unchanged, no Record Store call is made, and any such record-level
error forces the aggregate success flag of Relations.post to false. -/
theorem C6_fk_handling (store : Store) (sfx : Option String) (user : String) (pid : Int)
    (tbl fkField : String) (internalFields : List String) :
    (∀ rec : Props,
       pyEq ((lookupP rec "__status__").getD (vStr "")) (vStr "new") = true →
       (tbl ++ "__") ++ fkField ≠ "__status__" →
       processRecord store sfx user pid tbl fkField internalFields rec =
         .ok (finishStore tbl (tableInternal (tbl ++ "__") internalFields)
               (setP rec ((tbl ++ "__") ++ fkField) (vInt pid))
               (store.create tbl
                 ((lookupP (setP rec ((tbl ++ "__") ++ fkField) (vInt pid)) "id").getD vNull)
                 (unpfx (tbl ++ "__") (setP rec ((tbl ++ "__") ++ fkField) (vInt pid))))
               [Call.create tbl
                 (unpfx (tbl ++ "__") (setP rec ((tbl ++ "__") ++ fkField) (vInt pid)))]) ∧
       lookupP (unpfx (tbl ++ "__") (setP rec ((tbl ++ "__") ++ fkField) (vInt pid))) fkField
         = some (vInt pid)) ∧
    (∀ rec : Props,
       pyEq ((lookupP rec "__status__").getD (vStr "")) (vStr "new") = false →
       pyEq ((lookupP rec ((tbl ++ "__") ++ fkField)).getD vNull) (vInt pid) = false →
       processRecord store sfx user pid tbl fkField internalFields rec =
         .ok { out := [⟨setP rec "__error__" (vStr "FK validation failed"), none⟩],
               haserr := true, calls := [] }) ∧
    (∀ (att : AttStore) (payload : Payload) (rd : RelData) (rec : Props) (ro : RecOut)
       (rv : List (String × TableOut)) (succ : Bool) (cs : List Call),
       (tbl, rd) ∈ payload → rd.fk = some (vStr fkField) → rec ∈ rd.records →
       processRecord store sfx user pid tbl fkField [] rec = .ok ro → ro.haserr = true →
       relationsPost store att true sfx user pid [] payload = .ok rv succ cs → succ = false) := by
  refine ⟨?_, ?_, ?_⟩
  · intro rec h1 h2
    exact procRec_new store sfx user pid tbl fkField internalFields rec h1 h2
  · intro rec h1 h2
    exact procRec_fkErr store sfx user pid tbl fkField internalFields rec h1 h2
  · intro att payload rd rec ro rv succ cs h1 h2 h3 h4 h5 h6
    exact relationsPost_success_of_err store att sfx user pid payload tbl rd fkField rec ro
      h1 h2 h3 h4 h5 _ _ _ h6

/-- Claim C4 amended: for a "changed" record (with an id, a passing FK check
and a diff that completes) the Record Store update is invoked on the diffed
entry; if it fails, exactly the new-side references are passed to cleanup
(prefix-stripped) and the record is echoed with the error and the error flag
set — an old still-valid reference stays untouched provided its stripped slug
is not also produced by the new side (the swap counterexample shows that an
old reference that reappears on the new side IS removed); if the update
succeeds, exactly the old-side references are passed to cleanup. -/
theorem C4_amended (store : Store) (sfx : Option String) (user : String) (pid : Int)
    (tbl fkField : String) (internalFields : List String) (rec : Props) (idv : Value)
    (na oa : List String) (props2 : Props) (tif2 : List String)
    (hst : lookupP rec "__status__" = some (vStr "changed"))
    (hfk : pyEq ((lookupP rec ((tbl ++ "__") ++ fkField)).getD vNull) (vInt pid) = true)
    (hid : lookupP rec "id" = some idv)
    (hdiff : attachments_diff (store.show_ tbl idv) (unpfx (tbl ++ "__") rec)
        (tableInternal (tbl ++ "__") internalFields) sfx user false
        = .ok (na, oa, props2, tif2)) :
    (∀ e, store.update tbl idv props2 = .error e →
       processRecord store sfx user pid tbl fkField internalFields rec =
         .ok ⟨[⟨setP rec "error" (vStr e.msg), some e.details⟩], true,
              Call.update tbl idv props2 :: (cleanup_calls na).map Call.removeAtt⟩ ∧
       (∀ r2 ∈ oa, pyLstrip r2 "attachment://" ∉ cleanup_calls na →
          Call.removeAtt (pyLstrip r2 "attachment://") ∉
            Call.update tbl idv props2 :: (cleanup_calls na).map Call.removeAtt)) ∧
    (∀ f, store.update tbl idv props2 = .ok f →
       processRecord store sfx user pid tbl fkField internalFields rec =
         .ok ⟨[⟨echoFeature tbl tif2 f, none⟩], false,
              Call.update tbl idv props2 :: (cleanup_calls oa).map Call.removeAtt⟩) := by
  have hmain := procRec_changed store sfx user pid tbl fkField internalFields rec idv na oa
    props2 tif2 hst hfk hid hdiff
  constructor
  · intro e he
    constructor
    · rw [hmain, he]
      rfl
    · intro r2 _ hnot hmem
      rcases List.mem_cons.mp hmem with h1 | h1
      · exact Call.noConfusion h1
      · obtain ⟨y, hy1, hy2⟩ := List.mem_map.mp h1
        injection hy2 with hy3
        rw [hy3] at hy1
        exact hnot hy1
  · intro f hf
    rw [hmain, hf]
    rfl

/-- Claim C5 amended: with forceAllChanged (record being deleted) the diff
iterates the *incoming payload's* property keys, so a stored attachment field
is treated as removed exactly when the payload carries that property: every
payload key whose stored value is an attachment reference contributes that
reference to oldRefs. On the delete path the best-effort audit update (only
when a suffix is configured) precedes the destroy, and cleanup receives the
old side when the destroy succeeded, the new side when it failed. -/
theorem C5_amended :
    (∀ (prevProps props : Props) (internal : List String) (sfx : Option String)
       (user k : String) (pv : Value) (r : DiffOut),
       k ∈ props.map (fun kv => kv.1) →
       lookupP prevProps k = some pv →
       startsWithS (pyStr pv) "attachment://" = true →
       attachments_diff (some prevProps) props internal sfx user true = .ok r →
       pyStr pv ∈ r.2.1) ∧
    (∀ (store : Store) (sfx : Option String) (user : String) (pid : Int)
       (tbl fkField : String) (internalFields : List String) (rec : Props) (s : String)
       (idv : Value) (na oa : List String) (props2 : Props) (tif2 : List String),
       lookupP rec "__status__" = some (vStr s) →
       startsWithS s "deleted" = true → s ≠ "new" → s ≠ "changed" →
       pyEq ((lookupP rec ((tbl ++ "__") ++ fkField)).getD vNull) (vInt pid) = true →
       lookupP rec "id" = some idv →
       attachments_diff (store.show_ tbl idv) (unpfx (tbl ++ "__") rec)
         (tableInternal (tbl ++ "__") internalFields) sfx user true
         = .ok (na, oa, props2, tif2) →
       (store.destroy tbl idv = .ok () →
          processRecord store sfx user pid tbl fkField internalFields rec =
            .ok ⟨[], false,
                 (if sfx.isSome then [Call.update tbl idv props2] else []) ++
                   [Call.destroy tbl idv] ++ (cleanup_calls oa).map Call.removeAtt⟩) ∧
       (∀ e, store.destroy tbl idv = .error e →
          processRecord store sfx user pid tbl fkField internalFields rec =
            .ok ⟨[⟨setP rec "error" (vStr e.msg), some e.details⟩], true,
                 (if sfx.isSome then [Call.update tbl idv props2] else []) ++
                   [Call.destroy tbl idv] ++ (cleanup_calls na).map Call.removeAtt⟩)) := by
  constructor
  · intro prevProps props internal sfx user k pv r hmem hpv hsw h
    unfold attachments_diff at h
    exact diffLoop_oa_of_rd prevProps sfx user _ _ _ _ _ _ _ _ hmem hpv hsw h
  · intro store sfx user pid tbl fkField internalFields rec s idv na oa props2 tif2
      hst hdel hsnew hsch hfk hid hdiff
    have hmain := procRec_deleted store sfx user pid tbl fkField internalFields rec s idv
      na oa props2 tif2 hst hdel hsnew hsch hfk hid hdiff
    constructor
    · intro hok
      rw [hmain, hok]
      rfl
    · intro e he
      rw [hmain, he]
      rfl

/-- Claim C2 amended: a record is echoed (with committed state or error) when
its __status__ is absent, when it fails FK validation, and when its status is
"new" or "changed"; a record whose status begins with "deleted" is echoed
exactly when the Record Store destroy failed (a successfully deleted record
is not echoed, since the destroy result carries no feature); a record with
any other __status__ value is silently dropped with no call made. -/
theorem C2_amended (store : Store) (sfx : Option String) (user : String) (pid : Int)
    (tbl fkField : String) (internalFields : List String) :
    (∀ rec : Props, lookupP rec "__status__" = none →
       pyEq ((lookupP rec ((tbl ++ "__") ++ fkField)).getD vNull) (vInt pid) = true →
       processRecord store sfx user pid tbl fkField internalFields rec =
         .ok { out := [⟨rec, none⟩], haserr := false, calls := [] }) ∧
    (∀ rec : Props,
       pyEq ((lookupP rec "__status__").getD (vStr "")) (vStr "new") = false →
       pyEq ((lookupP rec ((tbl ++ "__") ++ fkField)).getD vNull) (vInt pid) = false →
       processRecord store sfx user pid tbl fkField internalFields rec =
         .ok { out := [⟨setP rec "__error__" (vStr "FK validation failed"), none⟩],
               haserr := true, calls := [] }) ∧
    (∀ rec : Props,
       pyEq ((lookupP rec "__status__").getD (vStr "")) (vStr "new") = true →
       (tbl ++ "__") ++ fkField ≠ "__status__" →
       ∃ ro : RecOut,
         processRecord store sfx user pid tbl fkField internalFields rec = .ok ro ∧
         ro.out.length = 1) ∧
    (∀ (rec : Props) (idv : Value) (na oa : List String) (props2 : Props)
       (tif2 : List String),
       lookupP rec "__status__" = some (vStr "changed") →
       pyEq ((lookupP rec ((tbl ++ "__") ++ fkField)).getD vNull) (vInt pid) = true →
       lookupP rec "id" = some idv →
       attachments_diff (store.show_ tbl idv) (unpfx (tbl ++ "__") rec)
         (tableInternal (tbl ++ "__") internalFields) sfx user false
         = .ok (na, oa, props2, tif2) →
       ∃ ro : RecOut,
         processRecord store sfx user pid tbl fkField internalFields rec = .ok ro ∧
         ro.out.length = 1) ∧
    (∀ (rec : Props) (s : String) (idv : Value) (na oa : List String) (props2 : Props)
       (tif2 : List String),
       lookupP rec "__status__" = some (vStr s) → startsWithS s "deleted" = true →
       s ≠ "new" → s ≠ "changed" →
       pyEq ((lookupP rec ((tbl ++ "__") ++ fkField)).getD vNull) (vInt pid) = true →
       lookupP rec "id" = some idv →
       attachments_diff (store.show_ tbl idv) (unpfx (tbl ++ "__") rec)
         (tableInternal (tbl ++ "__") internalFields) sfx user true
         = .ok (na, oa, props2, tif2) →
       ∃ ro : RecOut,
         processRecord store sfx user pid tbl fkField internalFields rec = .ok ro ∧
         (ro.out = [] ↔ store.destroy tbl idv = .ok ())) ∧
    (∀ (rec : Props) (s : String),
       lookupP rec "__status__" = some (vStr s) →
       s ≠ "new" → s ≠ "changed" → startsWithS s "deleted" = false →
       pyEq ((lookupP rec ((tbl ++ "__") ++ fkField)).getD vNull) (vInt pid) = true →
       processRecord store sfx user pid tbl fkField internalFields rec =
         .ok { out := [], haserr := false, calls := [] }) := by
  refine ⟨?_, ?_, ?_, ?_, ?_, ?_⟩
  · intro rec h1 h2
    exact procRec_noStatus store sfx user pid tbl fkField internalFields rec h1 h2
  · intro rec h1 h2
    exact procRec_fkErr store sfx user pid tbl fkField internalFields rec h1 h2
  · intro rec h1 h2
    exact ⟨_, (procRec_new store sfx user pid tbl fkField internalFields rec h1 h2).1,
      finishStore_out_length _ _ _ _ _⟩
  · intro rec idv na oa props2 tif2 h1 h2 h3 h4
    exact ⟨_, procRec_changed store sfx user pid tbl fkField internalFields rec idv na oa
      props2 tif2 h1 h2 h3 h4, finishStore_out_length _ _ _ _ _⟩
  · intro rec s idv na oa props2 tif2 h1 h2 h3 h4 h5 h6 h7
    exact ⟨_, procRec_deleted store sfx user pid tbl fkField internalFields rec s idv na oa
      props2 tif2 h1 h2 h3 h4 h5 h6 h7, finishDestroy_out_empty_iff _ _ _⟩
  · intro rec s h1 h2 h3 h4 h5
    exact procRec_other store sfx user pid tbl fkField internalFields rec s h1 h2 h3 h4 h5

/-- Claim C3 amended: Relations.post performs no child-table validation — any
table name in the batch is processed exactly like a declared child table: a
table whose single record lacks __status__ completes with success, the record
echoed and no error raised (silently accepted, no Record Store call), and a
"new" record is sent to the Record Store create *under that table name*,
whatever it is. -/
theorem C3_amended (store : Store) (att : AttStore) (sfx : Option String) (user : String)
    (pid : Int) :
    (∀ (tbl fkField : String) (rec : Props),
       lookupP rec "__status__" = none →
       pyEq ((lookupP rec ((tbl ++ "__") ++ fkField)).getD vNull) (vInt pid) = true →
       relationsPost store att true sfx user pid [] [(tbl, ⟨some (vStr fkField), [rec]⟩)] =
         .ok [(tbl, ⟨some (vStr fkField), [⟨rec, none⟩]⟩)] true []) ∧
    (∀ (tbl fkField : String) (rec : Props),
       pyEq ((lookupP rec "__status__").getD (vStr "")) (vStr "new") = true →
       (tbl ++ "__") ++ fkField ≠ "__status__" →
       ∃ (rv : List (String × TableOut)) (succ : Bool) (cs : List Call),
         relationsPost store att true sfx user pid [] [(tbl, ⟨some (vStr fkField), [rec]⟩)] =
           .ok rv succ cs ∧
         Call.create tbl (unpfx (tbl ++ "__") (setP rec ((tbl ++ "__") ++ fkField) (vInt pid)))
           ∈ cs) := by
  constructor
  · intro tbl fkField rec h1 h2
    exact relationsPost_single store att sfx user pid tbl fkField rec _
      (procRec_noStatus store sfx user pid tbl fkField [] rec h1 h2)
  · intro tbl fkField rec h1 h2
    have hr := (procRec_new store sfx user pid tbl fkField [] rec h1 h2).1
    refine ⟨_, _, _, relationsPost_single store att sfx user pid tbl fkField rec _ hr, ?_⟩
    rw [finishStore_calls]
    exact List.mem_singleton.mpr rfl

/-- Claim C7: in both multi-file save loops (Relations.post, server.py 693-712,
and the multipart create, 391-402), files are saved one at a time in request
order, and when a save fails the request aborts with 404 after removing every
slug already saved in the same call: the abort trace is exactly the saves of
the earlier slugs followed by their removals in the same order — so it
contains no Record Store write, and it leaves nothing new on disk. -/
theorem C7_saveAll_rollback :
    (∀ (store : Store) (att : AttStore) (sfx : Option String) (user : String) (pid : Int)
       (keys : List String) (payload : Payload) (k : String) (cls : List Call),
       validateAll att keys = none →
       saveLoopRel att sfx user keys payload [] [] [] = .fail k cls →
       relationsPost store att true sfx user pid keys payload =
         .httpAbort 404 ("Failed to save attachment: " ++ k) cls ∧
       att.save k = none ∧
       (∃ slugs : List String, cls = slugs.map Call.saveAtt ++ slugs.map Call.removeAtt) ∧
       (∀ (d : List String) (x : String), x ∈ diskAfter d cls → x ∈ d)) ∧
    (∀ (att : AttStore) (createF : Props → Except StoreErr Feat) (ds2 : String)
       (sfx : Option String) (user : String) (keys : List String) (props : Props)
       (k : String) (cls : List Call),
       validateAll att keys = none →
       saveLoopFeat att sfx user keys props [] [] [] = .fail k cls →
       createPost att createF ds2 sfx user keys props =
         .httpAbort 404 ("Failed to save attachment: " ++ k) cls ∧
       att.save k = none ∧
       (∃ slugs : List String, cls = slugs.map Call.saveAtt ++ slugs.map Call.removeAtt) ∧
       (∀ (d : List String) (x : String), x ∈ diskAfter d cls → x ∈ d)) := by
  constructor
  · intro store att sfx user pid keys payload k cls hval hfail
    obtain ⟨hnone, ds, hds⟩ :=
      saveLoopRel_fail_decomp att sfx user keys payload [] [] [] k cls hfail
    have hds2 : cls = ds.map Call.saveAtt ++ ds.map Call.removeAtt := by
      simpa using hds
    refine ⟨?_, hnone, ⟨ds, hds2⟩, ?_⟩
    · unfold relationsPost
      simp only [Bool.not_true, hval, hfail]
      rfl
    · intro d x hx
      rw [hds2] at hx
      exact diskAfter_save_remove_subset ds d hx
  · intro att createF ds2 sfx user keys props k cls hval hfail
    obtain ⟨hnone, ds, hds⟩ :=
      saveLoopFeat_fail_decomp att sfx user keys props [] [] [] k cls hfail
    have hds2 : cls = ds.map Call.saveAtt ++ ds.map Call.removeAtt := by
      simpa using hds
    refine ⟨?_, hnone, ⟨ds, hds2⟩, ?_⟩
    · unfold createPost
      simp only [hval, hfail]
    · intro d x hx
      rw [hds2] at hx
      exact diskAfter_save_remove_subset ds d hx

/-- Claim C9: diffing a stored record against an identical incoming record
(forceAllChanged false) yields empty newRefs and oldRefs and leaves both the
properties and the internal-field set untouched; and replacing a field's
attachment reference A by B (both attachment references, the field present in
the payload, the key not aliased by an audit field name) puts A into oldRefs
and B into newRefs. -/
theorem C9_diff_symmetry :
    (∀ (props : Props) (internal : List String) (sfx : Option String) (user : String),
       attachments_diff (some props) props internal sfx user false =
         .ok ([], [], props, internal)) ∧
    (∀ (prevProps props : Props) (internal : List String) (sfx : Option String)
       (user k ra rb : String) (r : DiffOut),
       k ∈ props.map (fun kv => kv.1) →
       lookupP prevProps k = some (vStr ra) →
       lookupP props k = some (vStr rb) →
       ra ≠ rb →
       startsWithS ra "attachment://" = true →
       startsWithS rb "attachment://" = true →
       (∀ s, sfx = some s → ∀ k0, k ≠ k0 ++ "__" ++ s) →
       attachments_diff (some prevProps) props internal sfx user false = .ok r →
       ra ∈ r.2.1 ∧ rb ∈ r.1) := by
  constructor
  · intro props internal sfx user
    unfold attachments_diff
    apply diffLoop_self
    intro k hk
    exact lookupP_isSome_of_mem hk
  · intro prevProps props internal sfx user k ra rb r hmem hpra hprb hne hsa hsb halias h
    unfold attachments_diff at h
    exact diffLoop_repl prevProps sfx user _ _ _ _ _ _ _ _ _ hmem hpra hprb hne hsa hsb halias h

/-- Claim C1 amended: for a single-record multipart update whose Record Store
write fails, the request's call trace is exactly: the saves of this call's
slugs, then the previous-record scan's removals of changed old attachments
(issued *before* the Store update is attempted, server.py 490-494), then the
update, then — as rollback — removals of exactly this call's saved slugs. So
no newly saved slug survives the failed call, but an old attachment whose
field value changed has already been removed from storage when the write
fails (the premature deletion the counterexample exhibits). -/
theorem C1_amended (att : AttStore) (prevProps : Props)
    (updF : Props → Except StoreErr Feat) (ds2 : String) (idn : Int) (sfx : Option String)
    (user : String) (fileKeys : List String) (props props1 : Props)
    (internal1 : List String) (saved1 : List (String × String)) (cls1 : List Call)
    (props2 : Props) (internal2 : List String) (cls2 : List Call) (e : StoreErr)
    (hval : validateAll att fileKeys = none)
    (hsave : saveLoopFeat att sfx user fileKeys props [] [] [] = .ok props1 internal1 saved1 cls1)
    (hscan : prevScan prevProps sfx user (props1.map (fun kv => kv.1)) props1 internal1 cls1
              = (props2, internal2, cls2))
    (hupd : updF props2 = .error e) :
    editPut att (some prevProps) updF ds2 idn sfx user fileKeys props =
      .httpAbort e.code e.msg
        (cls2 ++ [Call.update ds2 (vInt idn) props2] ++
          saved1.map (fun kv => Call.removeAtt kv.2)) ∧
    (∀ s ∈ saved1.map (fun kv => kv.2),
       Call.removeAtt s ∈
         cls2 ++ [Call.update ds2 (vInt idn) props2] ++
           saved1.map (fun kv => Call.removeAtt kv.2)) ∧
    (∃ ds : List (String × String),
       saved1 = ds ∧ cls1 = ds.map (fun kv => Call.saveAtt kv.2)) := by
  refine ⟨?_, ?_, ?_⟩
  · unfold editPut
    simp only [hval, hsave, hscan, hupd]
  · intro s hs
    refine List.mem_append_right _ ?_
    obtain ⟨kv, hkv1, hkv2⟩ := List.mem_map.mp hs
    exact List.mem_map.mpr ⟨kv, hkv1, by rw [hkv2]⟩
  · obtain ⟨ds, h1, h2⟩ := saveLoopFeat_ok_decomp att sfx user fileKeys props [] [] []
      props1 internal1 saved1 cls1 hsave
    exact ⟨ds, by simpa using h1, by simpa using h2⟩

/-- Witness for C6: a "new" record with a conflicting explicit FK value 99 is
force-corrected to the parent id 7 and its entry carries parent_id 7; a
"changed" record with FK 99 is FK-rejected with no Store call. -/
theorem C6_witness :
    lookupP (unpfx ("children" ++ "__")
        (setP [("__status__", vStr "new"), ("children__parent_id", vInt 99)]
          (("children" ++ "__") ++ "parent_id") (vInt 7))) "parent_id" = some (vInt 7) ∧
    processRecord failStore none "u" 7 "children" "parent_id" []
      [("children__parent_id", vInt 99), ("__status__", vStr "changed")] =
      .ok { out := [⟨setP [("children__parent_id", vInt 99), ("__status__", vStr "changed")]
                      "__error__" (vStr "FK validation failed"), none⟩],
            haserr := true, calls := [] } :=
  ⟨((C6_fk_handling failStore none "u" 7 "children" "parent_id" []).1
      [("__status__", vStr "new"), ("children__parent_id", vInt 99)]
      (by decide) (by decide)).2,
   (C6_fk_handling failStore none "u" 7 "children" "parent_id" []).2.1
      [("children__parent_id", vInt 99), ("__status__", vStr "changed")]
      (by decide) (by decide)⟩

/-- Witness for C2 amended: a record with the unrecognized status "x" yields
no echo and no call; a "deleted" record whose destroy succeeds exists in the
processed form with an empty echo. -/
theorem C2_witness :
    processRecord failStore none "u" 7 "children" "parent_id" []
      [("children__parent_id", vInt 7), ("__status__", vStr "x")] =
      .ok { out := [], haserr := false, calls := [] } ∧
    (∃ ro : RecOut,
       processRecord delStore none "u" 7 "children" "parent_id" []
         [("id", vInt 1), ("__status__", vStr "deleted"), ("children__parent_id", vInt 7),
          ("children__photo", vStr "attachment://x1")] = .ok ro ∧
       (ro.out = [] ↔ delStore.destroy "children" (vInt 1) = .ok ())) :=
  ⟨(C2_amended failStore none "u" 7 "children" "parent_id" []).2.2.2.2.2
     [("children__parent_id", vInt 7), ("__status__", vStr "x")] "x"
     (by decide) (by decide) (by decide) (by decide) (by decide),
   (C2_amended delStore none "u" 7 "children" "parent_id" []).2.2.2.2.1
     [("id", vInt 1), ("__status__", vStr "deleted"), ("children__parent_id", vInt 7),
      ("children__photo", vStr "attachment://x1")] "deleted" (vInt 1)
     ["attachment://x1"] ["attachment://x1"]
     [("parent_id", vInt 7), ("photo", vStr "attachment://x1")] []
     (by decide) (by decide) (by decide) (by decide) (by decide) (by decide) rfl⟩

/-- Witness for C3 amended: an arbitrary (undeclared) table name is processed
without any client error, the status-less record echoed with success. -/
theorem C3_witness :
    relationsPost failStore noSaveAtt true none "u" 7 []
      [("anytable", ⟨some (vStr "parent_id"), [[("anytable__parent_id", vInt 7)]]⟩)] =
      .ok [("anytable", ⟨some (vStr "parent_id"),
            [⟨[("anytable__parent_id", vInt 7)], none⟩]⟩)] true [] :=
  (C3_amended failStore noSaveAtt none "u" 7).1 "anytable" "parent_id"
    [("anytable__parent_id", vInt 7)] (by decide) (by decide)

/-- Witness for C4 amended at the swap scenario with a failing update: the
record is echoed with the error and the cleanup receives the new side. -/
theorem C4_witness :
    processRecord swapStore none "u" 7 "children" "parent_id" []
      [("id", vInt 1), ("__status__", vStr "changed"), ("children__parent_id", vInt 7),
       ("children__f", vStr "attachment://xb"), ("children__g", vStr "attachment://old1")] =
      .ok ⟨[⟨setP [("id", vInt 1), ("__status__", vStr "changed"),
               ("children__parent_id", vInt 7), ("children__f", vStr "attachment://xb"),
               ("children__g", vStr "attachment://old1")] "error" (vStr "err"), some []⟩],
           true,
           Call.update "children" (vInt 1)
               [("parent_id", vInt 7), ("f", vStr "attachment://xb"),
                ("g", vStr "attachment://old1")] ::
             (cleanup_calls ["attachment://xb", "attachment://old1"]).map Call.removeAtt⟩ :=
  ((C4_amended swapStore none "u" 7 "children" "parent_id" []
      [("id", vInt 1), ("__status__", vStr "changed"), ("children__parent_id", vInt 7),
       ("children__f", vStr "attachment://xb"), ("children__g", vStr "attachment://old1")]
      (vInt 1) ["attachment://xb", "attachment://old1"]
      ["attachment://old1", "attachment://xb"]
      [("parent_id", vInt 7), ("f", vStr "attachment://xb"), ("g", vStr "attachment://old1")]
      []
      (by decide) (by decide) (by decide) rfl).1 ⟨"err", 404, []⟩ rfl).1

/-- Witness for C5 amended: a payload property whose stored value is the
attachment x1 contributes it to oldRefs; and with the photo field present in
the delete payload, a successful destroy cleans up exactly the old side. -/
theorem C5_witness :
    (pyStr (vStr "attachment://x1") ∈
       (["attachment://zz"], ["attachment://x1"],
        [("photo", vStr "attachment://zz")], ([] : List String)).2.1) ∧
    processRecord delStore none "u" 7 "children" "parent_id" []
      [("id", vInt 1), ("__status__", vStr "deleted"), ("children__parent_id", vInt 7),
       ("children__photo", vStr "attachment://x1")] =
      .ok ⟨[], false,
           (if (none : Option String).isSome then
              [Call.update "children" (vInt 1)
                [("parent_id", vInt 7), ("photo", vStr "attachment://x1")]] else []) ++
             [Call.destroy "children" (vInt 1)] ++
             (cleanup_calls ["attachment://x1"]).map Call.removeAtt⟩ :=
  ⟨C5_amended.1 [("photo", vStr "attachment://x1")] [("photo", vStr "attachment://zz")]
     [] none "u" "photo" (vStr "attachment://x1")
     (["attachment://zz"], ["attachment://x1"], [("photo", vStr "attachment://zz")], [])
     (by decide) (by decide) (by decide) rfl,
   ((C5_amended.2 delStore none "u" 7 "children" "parent_id" []
      [("id", vInt 1), ("__status__", vStr "deleted"), ("children__parent_id", vInt 7),
       ("children__photo", vStr "attachment://x1")] "deleted" (vInt 1)
      ["attachment://x1"] ["attachment://x1"]
      [("parent_id", vInt 7), ("photo", vStr "attachment://x1")] []
      (by decide) (by decide) (by decide) (by decide) (by decide) (by decide) rfl).1 rfl)⟩

/-- Witness for C7 at a two-file request whose second save fails: the call
aborts with 404 and the trace saves then removes slug s1. -/
theorem C7_witness :
    relationsPost failStore oneSaveAtt true none "u" 7 ["file:a__b__0", "file:c__d__0"]
      [("a", ⟨some (vStr "parent_id"), [[("a__parent_id", vInt 7)]]⟩)] =
      .httpAbort 404 ("Failed to save attachment: " ++ "file:c__d__0")
        [Call.saveAtt "s1", Call.removeAtt "s1"] ∧
    oneSaveAtt.save "file:c__d__0" = none :=
  have h := C7_saveAll_rollback.1 failStore oneSaveAtt none "u" 7
    ["file:a__b__0", "file:c__d__0"]
    [("a", ⟨some (vStr "parent_id"), [[("a__parent_id", vInt 7)]]⟩)]
    "file:c__d__0" [Call.saveAtt "s1", Call.removeAtt "s1"] rfl rfl
  ⟨h.1, h.2.1⟩

/-- Witness for C9: the reflexive diff of a one-field record is empty, and a
photo replacement a1-to-b2 lands in oldRefs and newRefs respectively. -/
theorem C9_witness :
    attachments_diff (some [("photo", vStr "attachment://a1")])
      [("photo", vStr "attachment://a1")] [] none "u" false =
      .ok ([], [], [("photo", vStr "attachment://a1")], []) ∧
    (("attachment://a1" : String) ∈
        (["attachment://b2"], ["attachment://a1"],
         [("photo", vStr "attachment://b2")], ([] : List String)).2.1 ∧
     ("attachment://b2" : String) ∈
        (["attachment://b2"], ["attachment://a1"],
         [("photo", vStr "attachment://b2")], ([] : List String)).1) :=
  ⟨C9_diff_symmetry.1 [("photo", vStr "attachment://a1")] [] none "u",
   C9_diff_symmetry.2 [("photo", vStr "attachment://a1")] [("photo", vStr "attachment://b2")]
     [] none "u" "photo" "attachment://a1" "attachment://b2"
     (["attachment://b2"], ["attachment://a1"], [("photo", vStr "attachment://b2")], [])
     (by decide) (by decide) (by decide) (by decide) (by decide) (by decide)
     (fun s hs => Option.noConfusion hs) rfl⟩

/-- Witness for C1 amended: one uploaded photo (slug xph), stored photo old1,
failing update: the trace is save xph, premature removal of old1, the update,
then rollback removal of xph. -/
theorem C1_witness :
    editPut alwaysSaveAtt (some [("photo", vStr "attachment://old1")])
      (fun _ => .error ⟨"boom", 422, []⟩) "ds" 1 none "u" ["file:photo"]
      [("photo", vStr "attachment://old1")] =
      .httpAbort 422 "boom"
        [Call.saveAtt "xph", Call.removeAtt "old1",
         Call.update "ds" (vInt 1) [("photo", vStr "attachment://xph")],
         Call.removeAtt "xph"] :=
  (C1_amended alwaysSaveAtt [("photo", vStr "attachment://old1")]
    (fun _ => .error ⟨"boom", 422, []⟩) "ds" 1 none "u" ["file:photo"]
    [("photo", vStr "attachment://old1")] [("photo", vStr "attachment://xph")]
    [] [("file:photo", "xph")] [Call.saveAtt "xph"]
    [("photo", vStr "attachment://xph")] [] [Call.saveAtt "xph", Call.removeAtt "old1"]
    ⟨"boom", 422, []⟩ rfl rfl rfl rfl).1

end QWC
